import Mathlib

/-
  Verification development for the ProxGuard core: configuration parsers,
  the security-rule catalog, and the scoring engine.  The definitions below
  are a shallow embedding of the TypeScript source.  JavaScript strings are
  modelled through explicit character lists; each regular-expression match
  used by the source is reproduced as an explicit scanning function with the
  same match semantics (first position where the whole pattern matches,
  greedy quantifiers with backtracking where the source pattern needs it).
-/

namespace ProxGuard

/- ── JavaScript string primitives ─────────────────────────────────────── -/

/-- JS String.prototype.trim modelled on character lists. -/
def trimChars (cs : List Char) : List Char :=
  ((cs.dropWhile Char.isWhitespace).reverse.dropWhile Char.isWhitespace).reverse

/-- JS String.prototype.trim. -/
def jsTrim (s : String) : String := (trimChars s.data).asString

/-- JS String.prototype.toLowerCase (ASCII, as used by the source). -/
def lowerChars (cs : List Char) : List Char := cs.map Char.toLower

/-- JS String.prototype.toUpperCase (ASCII, as used by the source). -/
def upperChars (cs : List Char) : List Char := cs.map Char.toUpper

def lowerStr (s : String) : String := (lowerChars s.data).asString

def upperStr (s : String) : String := (upperChars s.data).asString

/-- Auxiliary for splitting on a separator character, JS split semantics. -/
def splitOnCharAux (sep : Char) : List Char → List Char → List (List Char)
  | [], acc => [acc.reverse]
  | c :: rest, acc =>
    if c = sep then acc.reverse :: splitOnCharAux sep rest []
    else splitOnCharAux sep rest (c :: acc)

/-- JS String.prototype.split with a single-character separator. -/
def splitOnChar (sep : Char) (cs : List Char) : List (List Char) :=
  splitOnCharAux sep cs []

/-- The lines of an input, via JS input.split of a newline. -/
def toLines (s : String) : List (List Char) := splitOnChar '\n' s.data

/-- Numeric value of a decimal digit run. -/
def digitsToNat (ds : List Char) : Nat := ds.foldl (fun a c => a * 10 + (c.toNat - 48)) 0

/-- JS parseInt(s, 10): skip leading whitespace, optional sign, decimal
digit run; NaN (modelled as none) when no digit is found. -/
def jsParseInt (s : String) : Option Int :=
  let cs := s.data.dropWhile Char.isWhitespace
  let signAndDigits : Int × List Char :=
    match cs with
    | '-' :: rest => (-1, rest)
    | '+' :: rest => (1, rest)
    | _ => (1, cs)
  let ds := signAndDigits.2.takeWhile Char.isDigit
  if ds.isEmpty then none else some (signAndDigits.1 * (digitsToNat ds : Int))

/-- JS parseInt(s, 10) with a trailing logical-or null: NaN and 0 both
collapse to null (0 is falsy in JS). -/
def jsParseIntOrNull (s : String) : Option Int :=
  match jsParseInt s with
  | some n => if n = 0 then none else some n
  | none => none

/-- Truthiness of an optional JS string (undefined and the empty string are
falsy). -/
def jsTruthyStr (o : Option String) : Bool :=
  match o with
  | some s => !(s == "")
  | none => false

/-- JS object property assignment on a string-keyed record, preserving the
insertion order of keys and overwriting the value of an existing key. -/
def recordSet (m : List (String × String)) (k v : String) : List (String × String) :=
  if m.any (fun p => p.1 == k) then m.map (fun p => if p.1 == k then (k, v) else p)
  else m ++ [(k, v)]

/-- JS object property read, none when the key is absent. -/
def recordGet (m : List (String × String)) (k : String) : Option String :=
  (m.find? (fun p => p.1 == k)).map (fun p => p.2)

/-- Auxiliary for substring search: does pat occur in s as a contiguous run. -/
def infixOfAux (pat : List Char) : List Char → Bool
  | [] => pat.isEmpty
  | c :: rest => pat.isPrefixOf (c :: rest) || infixOfAux pat rest

/-- JS String.prototype.includes. -/
def strIncludes (s pat : String) : Bool := infixOfAux pat.data s.data

/-- JS Array.prototype.join with a separator. -/
def joinWith (sep : String) (l : List String) : String := String.intercalate sep l

/-- JS spread of a new Set over a string list: deduplicate keeping the first
occurrence of each element, preserving order. -/
def jsSetDedupAux (seen : List String) : List String → List String
  | [] => []
  | x :: xs =>
    if seen.contains x then jsSetDedupAux seen xs
    else x :: jsSetDedupAux (x :: seen) xs

def jsSetDedup (l : List String) : List String := jsSetDedupAux [] l

/- ── Scanning helpers for the regular expressions used by the source ──── -/

/-- One attempt of the pattern flag-then-whitespace-run-then-token at the
current position: the flag characters must be a prefix here, followed by at
least one whitespace character and a nonempty non-whitespace token. -/
def flagAttempt (flag : List Char) (cs : List Char) : Option (List Char) :=
  if flag.isPrefixOf cs then
    let after := cs.drop flag.length
    match after with
    | c :: _ =>
      if c.isWhitespace then
        let tok := (after.dropWhile Char.isWhitespace).takeWhile (fun c => !c.isWhitespace)
        if tok.isEmpty then none else some tok
      else none
    | [] => none
  else none

/-- Unanchored search for flag-whitespace-token, returning the first position
where the whole pattern matches (JS RegExp.prototype.exec semantics). -/
def scanFlag (flag : List Char) : List Char → Option (List Char)
  | [] => none
  | c :: rest =>
    match flagAttempt flag (c :: rest) with
    | some tok => some tok
    | none => scanFlag flag rest

/-- scanFlag over strings, for flag and value pairs such as -source x. -/
def findFlagValue (flag : String) (rest : String) : Option String :=
  (scanFlag flag.data rest.data).map List.asString

/- ── Data model (source: src/types/index.ts) ──────────────────────────── -/

/-- Security audit categories. -/
inductive AuditCategory where
  | ssh | firewall | auth | container | api | storage
deriving DecidableEq, Repr

/-- Severity levels for security findings. -/
inductive Severity where
  | critical | high | medium | info
deriving DecidableEq, Repr

/-- Overall security grade. -/
inductive Grade where
  | A | B | C | D | F
deriving DecidableEq, Repr

/-- Proxmox configuration file types that can be audited.  Constructor names
replace the punctuation of the string identifiers (user.cfg, sshd_config,
cluster.fw, iptables, lxc.conf, storage.cfg). -/
inductive ConfigFileType where
  | user_cfg | sshd_config | cluster_fw | iptables | lxc_conf | storage_cfg
deriving DecidableEq, Repr

/-- Parsed SSH daemon configuration. -/
structure ParsedSSH where
  permitRootLogin : Option String
  passwordAuthentication : Option String
  pubkeyAuthentication : Option String
  port : Option Int
  maxAuthTries : Option Int
  permitEmptyPasswords : Option String
  x11Forwarding : Option String
  usePAM : Option String
  protocol : Option String
  loginGraceTime : Option String
  rawDirectives : List (String × String)
deriving DecidableEq, Repr

/-- Firewall rule from cluster.fw.  The source type field is the string
union of IN, OUT and GROUP. -/
structure FirewallRule where
  type : String
  action : String
  source : Option String := none
  dest : Option String := none
  proto : Option String := none
  dport : Option String := none
  sport : Option String := none
  iface : Option String := none
  comment : Option String := none
  enable : Bool
deriving DecidableEq, Repr

/-- IP set entry. -/
structure IPSetEntry where
  name : String
  entries : List String
deriving DecidableEq, Repr

/-- Parsed cluster firewall configuration. -/
structure ParsedFirewall where
  enabled : Option Bool
  policyIn : Option String
  policyOut : Option String
  rules : List FirewallRule
  ipSets : List IPSetEntry
  options : List (String × String)
deriving DecidableEq, Repr

/-- User entry from user.cfg. -/
structure PVEUser where
  userid : String
  email : Option String := none
  firstName : Option String := none
  lastName : Option String := none
  enable : Option Bool := none
  expire : Option Int := none
  comment : Option String := none
  tfa : Option String := none
deriving DecidableEq, Repr

/-- ACL entry from user.cfg. -/
structure PVEAcl where
  path : String
  ugid : String
  role : String
  propagate : Bool
deriving DecidableEq, Repr

/-- API token from user.cfg. -/
structure PVEToken where
  userid : String
  tokenId : String
  expire : Option Int := none
  privsep : Option Bool := none
  comment : Option String := none
deriving DecidableEq, Repr

/-- Group entry. -/
structure PVEGroup where
  groupid : String
  users : List String
  comment : Option String := none
deriving DecidableEq, Repr

/-- Parsed auth and user configuration. -/
structure ParsedAuth where
  users : List PVEUser
  groups : List PVEGroup
  acls : List PVEAcl
  tokens : List PVEToken
  roles : List (String × String)
deriving DecidableEq, Repr

/-- Individual container config. -/
structure ContainerConfig where
  id : String
  unprivileged : Option Bool
  nesting : Bool
  mountPoints : List String
  capabilities : List String
  hostname : Option String := none
  rawLines : List String
deriving DecidableEq, Repr

/-- Parsed LXC container configurations. -/
structure ParsedContainers where
  containers : List ContainerConfig
deriving DecidableEq, Repr

/-- Parsed API-related config, derived from user.cfg tokens plus ACLs. -/
structure ParsedAPI where
  tokens : List PVEToken
  tokenAcls : List PVEAcl
deriving DecidableEq, Repr

/-- Storage backend entry.  The source field export is renamed export_
because export is a Lean keyword. -/
structure StorageEntry where
  id : String
  type : String
  path : Option String := none
  server : Option String := none
  export_ : Option String := none
  share : Option String := none
  content : Option (List String) := none
  options : Option String := none
  mountOptions : Option String := none
  domain : Option String := none
  username : Option String := none
  maxfiles : Option Int := none
  subdir : Option String := none
  rawOptions : List (String × String)
deriving DecidableEq, Repr

/-- Parsed storage configuration. -/
structure ParsedStorage where
  entries : List StorageEntry
deriving DecidableEq, Repr

/-- Individual iptables rule. -/
structure IptablesRule where
  target : String
  protocol : String
  source : String
  destination : String
  options : String
  raw : String
deriving DecidableEq, Repr

/-- Iptables chain. -/
structure IptablesChain where
  name : String
  policy : String
  rules : List IptablesRule
deriving DecidableEq, Repr

/-- Parsed iptables output. -/
structure ParsedIptables where
  chains : List IptablesChain
deriving DecidableEq, Repr

/-- Aggregated parsed configuration from all input files.  The raw record is
modelled as a total function on the six file types (the source builds it with
defaults for every key). -/
structure ParsedConfig where
  ssh : Option ParsedSSH
  firewall : Option ParsedFirewall
  auth : Option ParsedAuth
  containers : Option ParsedContainers
  api : Option ParsedAPI
  storage : Option ParsedStorage
  iptables : Option ParsedIptables
  raw : ConfigFileType → String

/-- Result of evaluating a single security rule. -/
structure RuleResult where
  passed : Bool
  evidence : String
  details : Option String := none
deriving DecidableEq, Repr

/-- A security rule definition.  The descriptive prose fields of the source
(title, description, remediation, remediationScript, cisBenchmark) carry no
behaviour and are not part of any verified property, so they are omitted
from the embedding; id, category, severity and the pure test function are
kept. -/
structure SecurityRule where
  id : String
  category : AuditCategory
  severity : Severity
  test : ParsedConfig → RuleResult

/-- A finding is a rule paired with its evaluation result. -/
structure Finding where
  rule : SecurityRule
  result : RuleResult

/-- Score breakdown for a single category. -/
structure CategoryScore where
  category : AuditCategory
  score : Int
  findings : List Finding
  maxScore : Int

/-- Complete audit report. -/
structure AuditReport where
  timestamp : Int
  overallGrade : Grade
  overallScore : Int
  categories : List CategoryScore
  findings : List Finding
  inputFiles : List ConfigFileType

/- ── SSH config parser (source: src/parsers/sshd.ts) ──────────────────── -/

/-- The zero-value ParsedSSH the source initialises the parse with. -/
def emptyParsedSSH : ParsedSSH :=
  { permitRootLogin := none, passwordAuthentication := none, pubkeyAuthentication := none,
    port := none, maxAuthTries := none, permitEmptyPasswords := none, x11Forwarding := none,
    usePAM := none, protocol := none, loginGraceTime := none, rawDirectives := [] }

/-- Match of the pattern used to split an sshd_config line: a nonempty
non-whitespace key, at least one whitespace character, and a nonempty
remainder.  Returns the key and the raw remainder (the value). -/
def matchKeyValueLine (cs : List Char) : Option (List Char × List Char) :=
  let key := cs.takeWhile (fun c => !c.isWhitespace)
  if key.isEmpty then none
  else
    let rest := cs.drop key.length
    if rest.isEmpty then none
    else
      let value := rest.dropWhile Char.isWhitespace
      if value.isEmpty then none else some (key, value)

/-- Does the (trimmed) line open a Match block: the word match
case-insensitively, followed by at least one whitespace character. -/
def isMatchBlockStart (cs : List Char) : Bool :=
  let low := lowerChars cs
  low.take 5 == ['m', 'a', 't', 'c', 'h'] &&
    (match low.drop 5 with | c :: _ => c.isWhitespace | [] => false)

/-- Apply one key value directive to the accumulated ParsedSSH: record the
directive verbatim (original key case) and map recognised keys to typed
fields. -/
def applySSHDirective (acc : ParsedSSH) (k v : List Char) : ParsedSSH :=
  let key := (lowerChars k).asString
  let value := (trimChars v).asString
  let acc := { acc with rawDirectives := recordSet acc.rawDirectives k.asString value }
  if key = "permitrootlogin" then { acc with permitRootLogin := some (lowerStr value) }
  else if key = "passwordauthentication" then { acc with passwordAuthentication := some (lowerStr value) }
  else if key = "pubkeyauthentication" then { acc with pubkeyAuthentication := some (lowerStr value) }
  else if key = "port" then { acc with port := jsParseIntOrNull value }
  else if key = "maxauthtries" then { acc with maxAuthTries := jsParseIntOrNull value }
  else if key = "permitemptypasswords" then { acc with permitEmptyPasswords := some (lowerStr value) }
  else if key = "x11forwarding" then { acc with x11Forwarding := some (lowerStr value) }
  else if key = "usepam" then { acc with usePAM := some (lowerStr value) }
  else if key = "protocol" then { acc with protocol := some value }
  else if key = "logingracetime" then { acc with loginGraceTime := some value }
  else acc

/-- Line loop of the SSH parser.  A Match block stops parsing entirely (the
source breaks out of the loop); comments and blank lines are skipped. -/
def parseSSHLinesGo : List (List Char) → ParsedSSH → ParsedSSH
  | [], acc => acc
  | rawLine :: rest, acc =>
    let line := trimChars rawLine
    if line.isEmpty || line.head? == some '#' then parseSSHLinesGo rest acc
    else if isMatchBlockStart line then acc
    else
      match matchKeyValueLine line with
      | none => parseSSHLinesGo rest acc
      | some (k, v) => parseSSHLinesGo rest (applySSHDirective acc k v)

/-- Parser for OpenSSH sshd_config files. -/
def parseSSHConfig (input : String) : ParsedSSH :=
  if jsTrim input = "" then emptyParsedSSH
  else parseSSHLinesGo (toLines input) emptyParsedSSH

/- ── user.cfg parser (source: src/parsers/userCfg.ts) ─────────────────── -/

def emptyParsedAuth : ParsedAuth :=
  { users := [], groups := [], acls := [], tokens := [], roles := [] }

/-- Indexed field access on the colon-split record, with undefined and the
empty string both collapsing to the empty string (both are falsy in JS and
the source only uses the fields through truthiness or logical-or defaults). -/
def partAt (parts : List String) (i : Nat) : String := (parts.get? i).getD ""

/-- An optional string which is none when empty (JS value-or-undefined). -/
def strOpt (s : String) : Option String := if s = "" then none else some s

/-- Character-list prefix test (JS String.prototype.startsWith). -/
def charPrefix (p s : String) : Bool := p.data.isPrefixOf s.data

/-- Set the tfa field of the first user record whose id matches, returning
none when there is no such record (JS Array.prototype.find plus mutation). -/
def updateFirstTfa : List PVEUser → String → String → Option (List PVEUser)
  | [], _, _ => none
  | u :: rest, uid, ty =>
    if u.userid = uid then some ({ u with tfa := some ty } :: rest)
    else (updateFirstTfa rest uid ty).map (fun us => u :: us)

/-- One line of the user.cfg scan. -/
def userCfgStep (acc : ParsedAuth) (rawLine : List Char) : ParsedAuth :=
  let line := trimChars rawLine
  if line.isEmpty || line.head? == some '#' then acc
  else
    let parts := (splitOnChar ':' line).map List.asString
    let ty := lowerStr (partAt parts 0)
    if ty = "user" then
      let keys := partAt parts 8
      let user : PVEUser :=
        { userid := partAt parts 1,
          enable := if partAt parts 2 ≠ "" then some (partAt parts 2 == "1") else none,
          expire := if partAt parts 3 ≠ "" then jsParseIntOrNull (partAt parts 3) else none,
          firstName := strOpt (partAt parts 4),
          lastName := strOpt (partAt parts 5),
          email := strOpt (partAt parts 6),
          comment := strOpt (partAt parts 7),
          tfa := if keys ≠ "" && charPrefix "x!" keys then some keys else none }
      if user.userid ≠ "" then { acc with users := acc.users ++ [user] } else acc
    else if ty = "group" then
      let group : PVEGroup :=
        { groupid := partAt parts 1,
          users := if partAt parts 2 ≠ "" then
              ((splitOnChar ',' (partAt parts 2).data).map List.asString).filter (fun s => s ≠ "")
            else [],
          comment := strOpt (partAt parts 3) }
      if group.groupid ≠ "" then { acc with groups := acc.groups ++ [group] } else acc
    else if ty = "role" then
      let roleId := partAt parts 1
      let privs := partAt parts 2
      if roleId ≠ "" then { acc with roles := recordSet acc.roles roleId privs } else acc
    else if ty = "acl" then
      let acl : PVEAcl :=
        { propagate := partAt parts 1 == "1",
          path := if partAt parts 2 = "" then "/" else partAt parts 2,
          ugid := partAt parts 3,
          role := partAt parts 4 }
      if acl.ugid ≠ "" then { acc with acls := acc.acls ++ [acl] } else acc
    else if ty = "token" then
      let token : PVEToken :=
        { userid := partAt parts 1,
          tokenId := partAt parts 2,
          expire := if partAt parts 3 ≠ "" then jsParseIntOrNull (partAt parts 3) else none,
          privsep := if partAt parts 4 ≠ "" then some (partAt parts 4 == "1") else none,
          comment := strOpt (partAt parts 5) }
      if token.userid ≠ "" && token.tokenId ≠ "" then { acc with tokens := acc.tokens ++ [token] } else acc
    else if ty = "tfa" then
      let tfaUserId := partAt parts 1
      let tfaType := if partAt parts 2 = "" then "totp" else partAt parts 2
      match updateFirstTfa acc.users tfaUserId tfaType with
      | some us => { acc with users := us }
      | none => { acc with users := acc.users ++ [{ userid := tfaUserId, tfa := some tfaType }] }
    else acc

/-- The per-field merge of a later user record into the record already keyed
under the same id: a truthy field of the later record wins, a falsy one
never overwrites. -/
def mergeUser (existing u : PVEUser) : PVEUser :=
  { existing with
    tfa := if jsTruthyStr u.tfa then u.tfa else existing.tfa,
    email := if jsTruthyStr u.email then u.email else existing.email,
    firstName := if jsTruthyStr u.firstName then u.firstName else existing.firstName,
    lastName := if jsTruthyStr u.lastName then u.lastName else existing.lastName,
    enable := if u.enable.isSome then u.enable else existing.enable,
    expire := if u.expire.isSome then u.expire else existing.expire,
    comment := if jsTruthyStr u.comment then u.comment else existing.comment }

/-- One step of the deduplication fold.  The JS Map keyed by user id is
modelled as an ordered list with pairwise-distinct ids: an existing entry is
merged in place, a new id is appended (Map insertion order). -/
def dedupStep (m : List PVEUser) (u : PVEUser) : List PVEUser :=
  if m.any (fun e => e.userid == u.userid) then
    m.map (fun e => if e.userid == u.userid then mergeUser e u else e)
  else m ++ [u]

/-- Fold all scanned user records into a map keyed by user id and read the
values back in insertion order. -/
def dedupUsers (us : List PVEUser) : List PVEUser := us.foldl dedupStep []

/-- Parser for Proxmox VE user.cfg files. -/
def parseUserConfig (input : String) : ParsedAuth :=
  if jsTrim input = "" then emptyParsedAuth
  else
    let scanned := (toLines input).foldl userCfgStep emptyParsedAuth
    { scanned with users := dedupUsers scanned.users }

/- ── cluster.fw parser (source: src/parsers/clusterFw.ts) ─────────────── -/

def emptyParsedFirewall : ParsedFirewall :=
  { enabled := none, policyIn := none, policyOut := none, rules := [], ipSets := [], options := [] }

inductive FwSection where
  | options | rules | ipset | group | aliases
deriving DecidableEq, Repr

structure FwState where
  result : ParsedFirewall
  sect : Option FwSection
  currentIPSet : Option IPSetEntry

/-- Word character, the character class of the section header pattern. -/
def isWordChar (c : Char) : Bool := c.isAlphanum || c == '_'

/-- Match of the section header pattern: an opening bracket, a nonempty run
of word characters, an optional whitespace-separated name, and a closing
bracket ending the line.  The optional name reproduces the greedy
whitespace-run backtracking of the source pattern: normally the name is the
remainder after the maximal whitespace run, but when that remainder is
empty the final whitespace character itself is captured. -/
def parseSectionHeader (line : List Char) : Option (String × Option String) :=
  match line with
  | '[' :: rest =>
    let w := rest.takeWhile isWordChar
    if w.isEmpty then none
    else
      let r2 := rest.drop w.length
      match r2 with
      | [] => none
      | [']'] => some (w.asString, none)
      | c :: _ =>
        if c.isWhitespace then
          if r2.getLast? == some ']' then
            let mid := r2.dropLast
            let ws := mid.takeWhile Char.isWhitespace
            let nm := mid.drop ws.length
            if !nm.isEmpty then some (w.asString, some nm.asString)
            else if ws.length ≥ 2 then some (w.asString, some ((ws.drop (ws.length - 1)).asString))
            else none
          else none
        else none
  | _ => none

/-- Match of the OPTIONS line pattern: a nonempty run of word characters,
then at least one colon-or-whitespace character, then a nonempty value (when
the greedy separator run consumes the whole remainder its final character is
given back to the value, as the source pattern backtracks). -/
def parseOptionLine (line : List Char) : Option (String × String) :=
  let w := line.takeWhile isWordChar
  if w.isEmpty then none
  else
    let r := line.drop w.length
    let sep := r.takeWhile (fun c => c == ':' || c.isWhitespace)
    if sep.isEmpty then none
    else
      let v := r.drop sep.length
      if !v.isEmpty then some (w.asString, v.asString)
      else if sep.length ≥ 2 then some (w.asString, (sep.drop (sep.length - 1)).asString)
      else none

/-- Attempt of the comment pattern at the current position: a hash sign, an
optional whitespace run, and a nonempty capture to the end of the line (with
the same give-back-one-whitespace backtracking as above). -/
def commentAttempt (cs : List Char) : Option (List Char) :=
  match cs with
  | '#' :: rest =>
    if rest.isEmpty then none
    else
      let p := rest.takeWhile Char.isWhitespace
      let cap := rest.drop p.length
      if !cap.isEmpty then some cap
      else some (rest.drop (p.length - 1))
  | _ => none

/-- Unanchored search for the comment pattern. -/
def scanCommentGo : List Char → Option (List Char)
  | [] => none
  | c :: rest =>
    match commentAttempt (c :: rest) with
    | some cap => some cap
    | none => scanCommentGo rest

/-- Parse a single firewall rule line: an optional leading pipe marking the
rule disabled, a direction token IN, OUT or GROUP (case-insensitive)
followed by whitespace, an action token, and independently scanned
flag-value options plus an optional trailing comment. -/
def parseFirewallRule (line : List Char) : Option FirewallRule :=
  let enRl : Bool × List Char :=
    match line with
    | '|' :: rest => (false, trimChars rest)
    | _ => (true, line)
  let enabled := enRl.1
  let ruleLine := enRl.2
  let low := lowerChars ruleLine
  let dir? : Option (String × Nat) :=
    if ['i', 'n'].isPrefixOf low then some ("IN", 2)
    else if ['o', 'u', 't'].isPrefixOf low then some ("OUT", 3)
    else if ['g', 'r', 'o', 'u', 'p'].isPrefixOf low then some ("GROUP", 5)
    else none
  match dir? with
  | none => none
  | some (dir, n) =>
    let after := ruleLine.drop n
    match after with
    | [] => none
    | c :: _ =>
      if c.isWhitespace then
        let afterWs := after.dropWhile Char.isWhitespace
        let action := afterWs.takeWhile (fun c => !c.isWhitespace)
        if action.isEmpty then none
        else
          let rest := (afterWs.drop action.length).asString
          let r : FirewallRule := { type := dir, action := upperStr action.asString, enable := enabled }
          let r := match findFlagValue "-source" rest with | some v => { r with source := some v } | none => r
          let r := match findFlagValue "-dest" rest with | some v => { r with dest := some v } | none => r
          let r := match findFlagValue "-p" rest with | some v => { r with proto := some v } | none => r
          let r := match findFlagValue "-dport" rest with | some v => { r with dport := some v } | none => r
          let r := match findFlagValue "-sport" rest with | some v => { r with sport := some v } | none => r
          let r := match findFlagValue "-i" rest with | some v => { r with iface := some v } | none => r
          let r := match scanCommentGo rest.data with
                   | some cap => { r with comment := some ((trimChars cap).asString) }
                   | none => r
          some r
      else none

/-- Apply an OPTIONS key value pair. -/
def fwApplyOption (st : FwState) (k v : String) : FwState :=
  let key := lowerStr k
  let value := jsTrim v
  let res := st.result
  let res := { res with options := recordSet res.options key value }
  let res :=
    if key = "enable" then { res with enabled := some (value == "1" || lowerStr value == "true") }
    else if key = "policy_in" then { res with policyIn := some (upperStr value) }
    else if key = "policy_out" then { res with policyOut := some (upperStr value) }
    else res
  { st with result := res }

/-- One line of the cluster firewall scan. -/
def fwStep (st : FwState) (rawLine : List Char) : FwState :=
  let line := trimChars rawLine
  if line.isEmpty || line.head? == some '#' then st
  else
    match parseSectionHeader line with
    | some (word, nm) =>
      let st :=
        match st.currentIPSet with
        | some ips =>
          { st with result := { st.result with ipSets := st.result.ipSets ++ [ips] }, currentIPSet := none }
        | none => st
      let sw := lowerStr word
      if sw = "options" then { st with sect := some FwSection.options }
      else if sw = "rules" then { st with sect := some FwSection.rules }
      else if sw = "ipset" then
        { st with
          sect := some FwSection.ipset,
          currentIPSet := some
            { name := (match nm with | some s => if s == "" then "default" else s | none => "default"),
              entries := [] } }
      else if sw = "group" then { st with sect := some FwSection.group }
      else if sw = "aliases" then { st with sect := some FwSection.aliases }
      else st
    | none =>
      match st.sect with
      | some .options =>
        match parseOptionLine line with
        | some (k, v) => fwApplyOption st k v
        | none => st
      | some .rules =>
        match parseFirewallRule line with
        | some r => { st with result := { st.result with rules := st.result.rules ++ [r] } }
        | none => st
      | some .group =>
        match parseFirewallRule line with
        | some r => { st with result := { st.result with rules := st.result.rules ++ [r] } }
        | none => st
      | some .ipset =>
        match st.currentIPSet with
        | some ips =>
          let e := line.takeWhile (fun c => !c.isWhitespace && !(c == '#'))
          if e.isEmpty then st
          else { st with currentIPSet := some { ips with entries := ips.entries ++ [e.asString] } }
        | none => st
      | some .aliases => st
      | none => st

/-- Parser for Proxmox VE cluster.fw files. -/
def parseClusterFirewall (input : String) : ParsedFirewall :=
  if jsTrim input = "" then emptyParsedFirewall
  else
    let st := (toLines input).foldl fwStep ⟨emptyParsedFirewall, none, none⟩
    match st.currentIPSet with
    | some ips => { st.result with ipSets := st.result.ipSets ++ [ips] }
    | none => st.result

/- ── iptables parser (source: src/parsers/iptables.ts) ────────────────── -/

def emptyParsedIptables : ParsedIptables := ⟨[]⟩

/-- Detection of the list format: the word Chain at line start followed by
whitespace and a nonempty token. -/
def chainHeaderTest (l : List Char) : Bool :=
  l.take 5 == ['C', 'h', 'a', 'i', 'n'] &&
    (let r := l.drop 5
     let ws := r.takeWhile Char.isWhitespace
     !ws.isEmpty && !(r.drop ws.length).isEmpty)

/-- Insert or overwrite a chain record, preserving map insertion order. -/
def chainsSet (m : List IptablesChain) (c : IptablesChain) : List IptablesChain :=
  if m.any (fun e => e.name == c.name) then m.map (fun e => if e.name == c.name then c else e)
  else m ++ [c]

/-- Append a rule to the named chain, creating the chain with the dash
placeholder policy when it has not been declared yet. -/
def chainsAppendRule (m : List IptablesChain) (nm : String) (r : IptablesRule) : List IptablesChain :=
  if m.any (fun e => e.name == nm) then
    m.map (fun e => if e.name == nm then { e with rules := e.rules ++ [r] } else e)
  else m ++ [{ name := nm, policy := "-", rules := [r] }]

/-- Parse a single save-format rule string into a structured rule via
independent flag scans with the documented defaults. -/
def parseIptablesRule (ruleText rawLine : String) : IptablesRule :=
  let target := (findFlagValue "-j" ruleText).getD ""
  let protocol := (findFlagValue "-p" ruleText).getD "all"
  let source := (findFlagValue "-s" ruleText).getD "0.0.0.0/0"
  let destination := (findFlagValue "-d" ruleText).getD "0.0.0.0/0"
  let optParts :=
    (match findFlagValue "--dport" ruleText with | some v => ["dpt:" ++ v] | none => []) ++
    (match findFlagValue "--sport" ruleText with | some v => ["spt:" ++ v] | none => [])
  { target := target, protocol := protocol, source := source, destination := destination,
    options := joinWith " " optParts, raw := rawLine }

/-- Chain definition line of the save format: a colon, a nonempty name
token, whitespace, and a nonempty policy token. -/
def iptChainDef (line : List Char) : Option (String × String) :=
  match line with
  | ':' :: rest =>
    let nm := rest.takeWhile (fun c => !c.isWhitespace)
    if nm.isEmpty then none
    else
      let r := rest.drop nm.length
      let ws := r.takeWhile Char.isWhitespace
      if ws.isEmpty then none
      else
        let pol := (r.drop ws.length).takeWhile (fun c => !c.isWhitespace)
        if pol.isEmpty then none else some (nm.asString, pol.asString)
  | _ => none

/-- Append-rule line of the save format: dash A, whitespace, a chain name
token, whitespace, and the nonempty remainder as the rule text. -/
def iptRuleLine (line : List Char) : Option (String × String) :=
  match line with
  | '-' :: 'A' :: rest =>
    let ws := rest.takeWhile Char.isWhitespace
    if ws.isEmpty then none
    else
      let r := rest.drop ws.length
      let nm := r.takeWhile (fun c => !c.isWhitespace)
      if nm.isEmpty then none
      else
        let r2 := r.drop nm.length
        let ws2 := r2.takeWhile Char.isWhitespace
        if ws2.isEmpty then none
        else
          let ruleText := r2.drop ws2.length
          if ruleText.isEmpty then none else some (nm.asString, ruleText.asString)
  | _ => none

/-- One line of the save-format scan. -/
def iptSaveStep (m : List IptablesChain) (rawLine : List Char) : List IptablesChain :=
  let line := trimChars rawLine
  if line.isEmpty || line.head? == some '#' || line == "COMMIT".data || line.head? == some '*' then m
  else
    match iptChainDef line with
    | some (nm, pol) => chainsSet m { name := nm, policy := pol, rules := [] }
    | none =>
      match iptRuleLine line with
      | some (nm, ruleText) => chainsAppendRule m nm (parseIptablesRule ruleText line.asString)
      | none => m

structure IptLState where
  chains : List IptablesChain
  currentChain : Option IptablesChain
  headerSkipped : Bool

/-- Full list-format chain header: the word Chain, whitespace, a name token,
whitespace, an opening parenthesis, the word policy, whitespace, and the
policy capture (the longest token prefix followed by the closing
parenthesis, reproducing the greedy token-then-parenthesis backtracking). -/
def iptListChainHeader (line : List Char) : Option (String × String) :=
  if line.take 5 == ['C', 'h', 'a', 'i', 'n'] then
    let r := line.drop 5
    let ws1 := r.takeWhile Char.isWhitespace
    if ws1.isEmpty then none
    else
      let r2 := r.drop ws1.length
      let nm := r2.takeWhile (fun c => !c.isWhitespace)
      if nm.isEmpty then none
      else
        let r3 := r2.drop nm.length
        let ws2 := r3.takeWhile Char.isWhitespace
        if ws2.isEmpty then none
        else
          let r4 := r3.drop ws2.length
          if ['(', 'p', 'o', 'l', 'i', 'c', 'y'].isPrefixOf r4 then
            let r5 := r4.drop 7
            let ws3 := r5.takeWhile Char.isWhitespace
            if ws3.isEmpty then none
            else
              let tok := (r5.drop ws3.length).takeWhile (fun c => !c.isWhitespace)
              match (tok.reverse.findIdx? (fun c => c == ')')) with
              | some j =>
                let k := tok.length - 1 - j
                if k ≥ 1 then some (nm.asString, (tok.take k).asString) else none
              | none => none
          else none
  else none

/-- Bare list-format chain header: the word Chain, whitespace, a name token. -/
def iptListChainHeader2 (line : List Char) : Option String :=
  if line.take 5 == ['C', 'h', 'a', 'i', 'n'] then
    let r := line.drop 5
    let ws := r.takeWhile Char.isWhitespace
    if ws.isEmpty then none
    else
      let nm := (r.drop ws.length).takeWhile (fun c => !c.isWhitespace)
      if nm.isEmpty then none else some nm.asString
  else none

/-- Column header row of the list format: the word target, whitespace, and
the word prot. -/
def iptHeaderRow (line : List Char) : Bool :=
  line.take 6 == ['t', 'a', 'r', 'g', 'e', 't'] &&
    (let r := line.drop 6
     let ws := r.takeWhile Char.isWhitespace
     !ws.isEmpty && (r.drop ws.length).take 4 == ['p', 'r', 'o', 't'])

/-- Whitespace-run splitting (JS split on a whitespace-run pattern, with no
leading empty piece because the line has been trimmed first). -/
def splitWsAux : List Char → List Char → List (List Char)
  | [], acc => if acc.isEmpty then [] else [acc.reverse]
  | c :: rest, acc =>
    if c.isWhitespace then
      if acc.isEmpty then splitWsAux rest [] else acc.reverse :: splitWsAux rest []
    else splitWsAux rest (c :: acc)

def splitWs (cs : List Char) : List (List Char) := splitWsAux cs []

/-- One line of the list-format scan. -/
def iptListStep (st : IptLState) (rawLine : List Char) : IptLState :=
  let line := trimChars rawLine
  if line.isEmpty then { st with headerSkipped := false }
  else
    match iptListChainHeader line with
    | some (nm, pol) =>
      { chains := st.chains ++ (match st.currentChain with | some c => [c] | none => []),
        currentChain := some { name := nm, policy := pol, rules := [] },
        headerSkipped := false }
    | none =>
      match iptListChainHeader2 line with
      | some nm =>
        { chains := st.chains ++ (match st.currentChain with | some c => [c] | none => []),
          currentChain := some { name := nm, policy := "-", rules := [] },
          headerSkipped := false }
      | none =>
        if st.currentChain.isSome && !st.headerSkipped && iptHeaderRow line then
          { st with headerSkipped := true }
        else
          match st.currentChain with
          | some c =>
            if st.headerSkipped then
              let parts := (splitWs line).map List.asString
              if parts.length ≥ 5 then
                let rule : IptablesRule :=
                  { target := partAt parts 0, protocol := partAt parts 1,
                    source := partAt parts 3, destination := partAt parts 4,
                    options := joinWith " " (parts.drop 5), raw := line.asString }
                { st with currentChain := some { c with rules := c.rules ++ [rule] } }
              else st
            else st
          | none => st

/-- Parser for iptables-save and iptables list output, with format
auto-detection; an unrecognised format yields zero chains. -/
def parseIptables (input : String) : ParsedIptables :=
  if jsTrim input = "" then emptyParsedIptables
  else
    let lines := toLines input
    let isSave := lines.any (fun l => l.head? == some '*' || l.head? == some ':')
    let isL := lines.any chainHeaderTest
    if isSave then ⟨lines.foldl iptSaveStep []⟩
    else if isL then
      let st := lines.foldl iptListStep ⟨[], none, false⟩
      ⟨st.chains ++ (match st.currentChain with | some c => [c] | none => [])⟩
    else ⟨[]⟩

/- ── LXC container parser (source: src/parsers/lxc.ts) ────────────────── -/

def emptyParsedContainers : ParsedContainers := ⟨[]⟩

/-- Case-insensitive literal prefix match; the keyword is given lowercase.
Returns the remainder after the keyword. -/
def dropCIPrefix (kw : List Char) (cs : List Char) : Option (List Char) :=
  if lowerChars (cs.take kw.length) == kw then some (cs.drop kw.length) else none

/-- A nonempty run of decimal digits and the remainder after it. -/
def digitsCapture (cs : List Char) : Option (String × List Char) :=
  let ds := cs.takeWhile Char.isDigit
  if ds.isEmpty then none else some (ds.asString, cs.drop ds.length)

/-- Header pattern 1: hash, optional whitespace, the word Container
(case-insensitive), whitespace, digits. -/
def lxcHeader1 (cs : List Char) : Option String :=
  match cs with
  | '#' :: rest =>
    let r := rest.dropWhile Char.isWhitespace
    match dropCIPrefix "container".data r with
    | some r2 =>
      let ws := r2.takeWhile Char.isWhitespace
      if ws.isEmpty then none
      else (digitsCapture (r2.drop ws.length)).map (fun p => p.1)
    | none => none
  | _ => none

/-- Header pattern 2: bracket CT colon digits bracket (case-insensitive). -/
def lxcHeader2 (cs : List Char) : Option String :=
  match dropCIPrefix "[ct:".data cs with
  | some r =>
    match digitsCapture r with
    | some (d, r2) => if r2.head? == some ']' then some d else none
    | none => none
  | none => none

/-- Header pattern 3: hash, optional whitespace, the pve lxc config path,
digits, and the conf suffix (case-insensitive). -/
def lxcHeader3 (cs : List Char) : Option String :=
  match cs with
  | '#' :: rest =>
    let r := rest.dropWhile Char.isWhitespace
    match dropCIPrefix "/etc/pve/lxc/".data r with
    | some r2 =>
      match digitsCapture r2 with
      | some (d, r3) => if ".conf".data.isPrefixOf (lowerChars r3) then some d else none
      | none => none
    | none => none
  | _ => none

/-- Header pattern 4: hash, optional whitespace, the word CTID and a colon
(case-insensitive), optional whitespace, digits. -/
def lxcHeader4 (cs : List Char) : Option String :=
  match cs with
  | '#' :: rest =>
    let r := rest.dropWhile Char.isWhitespace
    match dropCIPrefix "ctid:".data r with
    | some r2 => (digitsCapture (r2.dropWhile Char.isWhitespace)).map (fun p => p.1)
    | none => none
  | _ => none

/-- Header pattern 5: hash, optional whitespace, a run of equals signs,
optional whitespace, digits, optional whitespace, a run of equals signs. -/
def lxcHeader5 (cs : List Char) : Option String :=
  match cs with
  | '#' :: rest =>
    let r := rest.dropWhile Char.isWhitespace
    let eqs := r.takeWhile (fun c => c == '=')
    if eqs.isEmpty then none
    else
      let r2 := (r.drop eqs.length).dropWhile Char.isWhitespace
      match digitsCapture r2 with
      | some (d, r3) =>
        if (r3.dropWhile Char.isWhitespace).head? == some '=' then some d else none
      | none => none
  | _ => none

/-- First matching container header pattern, in source order. -/
def lxcHeaderId (cs : List Char) : Option String :=
  match lxcHeader1 cs with
  | some d => some d
  | none =>
    match lxcHeader2 cs with
    | some d => some d
    | none =>
      match lxcHeader3 cs with
      | some d => some d
      | none =>
        match lxcHeader4 cs with
        | some d => some d
        | none => lxcHeader5 cs

structure LxcSplitState where
  blocks : List (String × List (List Char))
  currentId : Option String
  currentLines : List (List Char)

/-- One line of the block splitter: a header line flushes the previous block
and opens a new one; any other line is accumulated. -/
def lxcSplitStep (st : LxcSplitState) (line : List Char) : LxcSplitState :=
  match lxcHeaderId line with
  | some id =>
    match st.currentId with
    | some cid =>
      if !st.currentLines.isEmpty then
        { blocks := st.blocks ++ [(cid, st.currentLines)], currentId := some id, currentLines := [] }
      else { st with currentId := some id, currentLines := [] }
    | none => { st with currentId := some id, currentLines := [] }
  | none => { st with currentLines := st.currentLines ++ [line] }

def splitIntoContainerBlocks (input : String) : List (String × List (List Char)) :=
  let st := (toLines input).foldl lxcSplitStep ⟨[], none, []⟩
  match st.currentId with
  | some cid => if !st.currentLines.isEmpty then st.blocks ++ [(cid, st.currentLines)] else st.blocks
  | none => st.blocks

/-- Proxmox-style key value line of a container block: a nonempty run of
non-colon characters, a colon, optional whitespace, and a nonempty value.
The lines fed here are trimmed and nonempty, which makes the whitespace
give-back of the source pattern unreachable (a nonempty remainder after the
colon always ends in a non-whitespace character). -/
def containerKV (line : List Char) : Option (String × String) :=
  let keyPart := line.takeWhile (fun c => !(c == ':'))
  if keyPart.isEmpty then none
  else
    match line.drop keyPart.length with
    | ':' :: rest =>
      let v := rest.dropWhile Char.isWhitespace
      if v.isEmpty then none else some (keyPart.asString, v.asString)
    | _ => none

/-- One attempt of the native-format pattern with the key cut to the given
length: the remainder must be optional whitespace, an equals sign, optional
whitespace, and a nonempty value (with the give-back-one-whitespace
backtracking of the greedy quantifier after the equals sign). -/
def lxcAttemptAfterKey (wPart rem : List Char) : Option (String × String) :=
  let r1 := rem.dropWhile Char.isWhitespace
  match r1 with
  | '=' :: r2 =>
    let v := r2.dropWhile Char.isWhitespace
    if !v.isEmpty then some ("lxc." ++ wPart.asString, v.asString)
    else if !r2.isEmpty then some ("lxc." ++ wPart.asString, (r2.drop (r2.length - 1)).asString)
    else none
  | _ => none

/-- Greedy backtracking over the key token length, longest first. -/
def lxcTryKeys (w after : List Char) : Nat → Option (String × String)
  | 0 => none
  | Nat.succ n =>
    match lxcAttemptAfterKey (w.take (n + 1)) (w.drop (n + 1) ++ after) with
    | some r => some r
    | none => lxcTryKeys w after n

/-- Native-format line: the literal lxc dot prefix, a key token, an equals
sign with optional surrounding whitespace, and a value. -/
def lxcNativeKV (line : List Char) : Option (String × String) :=
  if ['l', 'x', 'c', '.'].isPrefixOf line then
    let rest := line.drop 4
    let w := rest.takeWhile (fun c => !c.isWhitespace)
    if w.isEmpty then none
    else lxcTryKeys w (rest.drop w.length) w.length
  else none

/-- Mount point key: mp followed by a nonempty digit run. -/
def isMpKey (key : String) : Bool :=
  match key.data with
  | 'm' :: 'p' :: ds => !ds.isEmpty && ds.all Char.isDigit
  | _ => false

/-- One line of a container block. -/
def containerStep (c : ContainerConfig) (rawLine : List Char) : ContainerConfig :=
  let line := trimChars rawLine
  if line.isEmpty || line.head? == some '#' then c
  else
    let c := { c with rawLines := c.rawLines ++ [line.asString] }
    let c :=
      match containerKV line with
      | some (k0, v0) =>
        let key := lowerStr (jsTrim k0)
        let value := jsTrim v0
        if key = "unprivileged" then { c with unprivileged := some (value == "1" || lowerStr value == "true") }
        else if key = "hostname" then { c with hostname := some value }
        else if key = "features" then
          let feats := (splitOnChar ',' value.data).map List.asString
          if feats.any (fun feat =>
              let fparts := (splitOnChar '=' feat.data).map List.asString
              jsTrim (partAt fparts 0) == "nesting" &&
                (jsTrim (partAt fparts 1) == "1" || jsTrim (partAt fparts 1) == "true"))
          then { c with nesting := true } else c
        else if isMpKey key then { c with mountPoints := c.mountPoints ++ [value] }
        else c
      | none => c
    match lxcNativeKV line with
    | some (k0, v0) =>
      let key := lowerStr k0
      let value := jsTrim v0
      if key = "lxc.idmap" then { c with unprivileged := some true }
      else if key = "lxc.mount.entry" then { c with mountPoints := c.mountPoints ++ [value] }
      else if key = "lxc.cap.drop" then { c with capabilities := c.capabilities ++ ["drop:" ++ value] }
      else if key = "lxc.cap.keep" then { c with capabilities := c.capabilities ++ ["keep:" ++ value] }
      else c
    | none => c

def parseContainerBlock (id : String) (lines : List (List Char)) : ContainerConfig :=
  lines.foldl containerStep
    { id := id, unprivileged := none, nesting := false, mountPoints := [], capabilities := [],
      rawLines := [] }

/-- Parser for LXC container configuration files. -/
def parseLXCConfig (input : String) : ParsedContainers :=
  if jsTrim input = "" then emptyParsedContainers
  else
    let blocks := splitIntoContainerBlocks input
    let cs := blocks.map (fun b => parseContainerBlock b.1 b.2)
    if cs.isEmpty then
      let c := parseContainerBlock "unknown" (toLines input)
      if !c.rawLines.isEmpty then ⟨[c]⟩ else ⟨[]⟩
    else ⟨cs⟩

/- ── storage.cfg parser (source: src/parsers/storage.ts) ──────────────── -/

def emptyParsedStorage : ParsedStorage := ⟨[]⟩

/-- Stanza header: a non-whitespace token ending in a colon at column zero,
whitespace, an id token, and nothing but whitespace to the end of the line.
Because the leading token of the pattern is greedy and may itself contain
colons, the colon consumed by the pattern is the final character of the
maximal non-whitespace run. -/
def storageHeader (cs : List Char) : Option (String × String) :=
  let run0 := cs.takeWhile (fun c => !c.isWhitespace)
  if run0.length ≥ 2 && run0.getLast? == some ':' then
    let tyPart := run0.dropLast
    let rest := cs.drop run0.length
    let ws := rest.takeWhile Char.isWhitespace
    if ws.isEmpty then none
    else
      let r2 := rest.drop ws.length
      let idTok := r2.takeWhile (fun c => !c.isWhitespace)
      if idTok.isEmpty then none
      else if (r2.drop idTok.length).all Char.isWhitespace then
        some (tyPart.asString, idTok.asString)
      else none
  else none

/-- Apply one indented key value pair to the open stanza. -/
def storageApplyKV (e : StorageEntry) (k0 v0 : String) : StorageEntry :=
  let key := lowerStr k0
  let value := jsTrim v0
  let e := { e with rawOptions := recordSet e.rawOptions key value }
  if key = "path" then { e with path := some value }
  else if key = "server" then { e with server := some value }
  else if key = "export" then { e with export_ := some value }
  else if key = "share" then { e with share := some value }
  else if key = "content" then
    { e with content := some (((splitOnChar ',' value.data).map List.asString).map jsTrim) }
  else if key = "options" then { e with options := some value }
  else if key = "mountoptions" then { e with mountOptions := some value }
  else if key = "mount" then { e with mountOptions := some value }
  else if key = "domain" then { e with domain := some value }
  else if key = "username" then { e with username := some value }
  else if key = "maxfiles" then { e with maxfiles := jsParseIntOrNull value }
  else if key = "subdir" then { e with subdir := some value }
  else e

structure StorageState where
  entries : List StorageEntry
  currentEntry : Option StorageEntry

/-- One line of the storage scan. -/
def storageStep (st : StorageState) (rawLine : List Char) : StorageState :=
  let trimmed := trimChars rawLine
  if trimmed.isEmpty || trimmed.head? == some '#' then st
  else
    match storageHeader rawLine with
    | some (ty, id) =>
      { entries := st.entries ++ (match st.currentEntry with | some e => [e] | none => []),
        currentEntry := some { type := lowerStr ty, id := id, rawOptions := [] } }
    | none =>
      match st.currentEntry with
      | some e =>
        if (match rawLine.head? with | some c => c.isWhitespace | none => false) then
          match matchKeyValueLine trimmed with
          | some (k, v) => { st with currentEntry := some (storageApplyKV e k.asString v.asString) }
          | none => st
        else st
      | none => st

/-- Parser for Proxmox VE storage.cfg files. -/
def parseStorageConfig (input : String) : ParsedStorage :=
  if jsTrim input = "" then emptyParsedStorage
  else
    let st := (toLines input).foldl storageStep ⟨[], none⟩
    ⟨st.entries ++ (match st.currentEntry with | some e => [e] | none => [])⟩

/- ── Config aggregator (source: src/parsers/index.ts) ─────────────────── -/

/-- The string identifier of each file type. -/
def fileTypeId : ConfigFileType → String
  | ConfigFileType.sshd_config => "sshd_config"
  | ConfigFileType.user_cfg => "user.cfg"
  | ConfigFileType.cluster_fw => "cluster.fw"
  | ConfigFileType.iptables => "iptables"
  | ConfigFileType.lxc_conf => "lxc.conf"
  | ConfigFileType.storage_cfg => "storage.cfg"

/-- The key order of the raw record literal built by the source. -/
def rawKeyOrder : List ConfigFileType :=
  [ConfigFileType.sshd_config, ConfigFileType.user_cfg, ConfigFileType.cluster_fw,
   ConfigFileType.iptables, ConfigFileType.lxc_conf, ConfigFileType.storage_cfg]

/-- Parse all provided config files into a unified ParsedConfig, defaulting
missing inputs to the empty string and deriving the API view from the auth
sub-model. -/
def parseAllConfigs (inputs : ConfigFileType → Option String) : ParsedConfig :=
  let raw : ConfigFileType → String := fun t => (inputs t).getD ""
  let ssh := parseSSHConfig (raw ConfigFileType.sshd_config)
  let auth := parseUserConfig (raw ConfigFileType.user_cfg)
  let firewall := parseClusterFirewall (raw ConfigFileType.cluster_fw)
  let iptables := parseIptables (raw ConfigFileType.iptables)
  let containers := parseLXCConfig (raw ConfigFileType.lxc_conf)
  let storage := parseStorageConfig (raw ConfigFileType.storage_cfg)
  let api : ParsedAPI :=
    { tokens := auth.tokens,
      tokenAcls := auth.acls.filter (fun acl =>
        auth.tokens.any (fun t => acl.ugid == t.userid || acl.ugid.data.contains '!')) }
  { ssh := some ssh, firewall := some firewall, auth := some auth,
    containers := some containers, api := some api, storage := some storage,
    iptables := some iptables, raw := raw }

/- ── SSH security rules (source: src/rules/ssh.ts) ────────────────────── -/

def rootSshPasswordTest (config : ParsedConfig) : RuleResult :=
  match config.ssh with
  | none => { passed := true, evidence := "No SSH config provided — cannot assess" }
  | some ssh =>
    let rootLogin := ssh.permitRootLogin
    let passwordAuth := ssh.passwordAuthentication
    let rootAllowed := rootLogin = some "yes" ∨ rootLogin = none
    let passwordAllowed := passwordAuth ≠ some "no"
    if rootAllowed ∧ passwordAllowed then
      { passed := false,
        evidence := "PermitRootLogin=" ++ rootLogin.getD "default (yes)" ++
          ", PasswordAuthentication=" ++ passwordAuth.getD "default (yes)",
        details := some "Root can authenticate via SSH using a password. An attacker only needs to guess the root password." }
    else
      { passed := true,
        evidence := "PermitRootLogin=" ++ rootLogin.getD "default" ++
          ", PasswordAuthentication=" ++ passwordAuth.getD "default" }

def sshDefaultPortTest (config : ParsedConfig) : RuleResult :=
  match config.ssh with
  | none => { passed := true, evidence := "No SSH config provided" }
  | some ssh =>
    if ssh.port = some 22 ∨ ssh.port = none then
      { passed := false,
        evidence := "Port=" ++ (match ssh.port with | some p => toString p | none => "22 (default)"),
        details := some "Automated scanners and botnets target port 22 by default." }
    else
      { passed := true,
        evidence := "Port=" ++ (match ssh.port with | some p => toString p | none => "") }

def passwordAuthEnabledTest (config : ParsedConfig) : RuleResult :=
  match config.ssh with
  | none => { passed := true, evidence := "No SSH config provided" }
  | some ssh =>
    if ssh.passwordAuthentication ≠ some "no" then
      { passed := false,
        evidence := "PasswordAuthentication=" ++ ssh.passwordAuthentication.getD "yes (default)",
        details := some "All users can authenticate with passwords, making brute-force attacks viable." }
    else
      { passed := true, evidence := "PasswordAuthentication=no" }

def highMaxAuthTriesTest (config : ParsedConfig) : RuleResult :=
  match config.ssh with
  | none => { passed := true, evidence := "No SSH config provided" }
  | some ssh =>
    match ssh.maxAuthTries with
    | some maxTries =>
      if maxTries > 6 then
        { passed := false,
          evidence := "MaxAuthTries=" ++ toString maxTries,
          details := some ("Allows " ++ toString maxTries ++ " attempts per connection. Recommended maximum is 4.") }
      else { passed := true, evidence := "MaxAuthTries=" ++ toString maxTries }
    | none => { passed := true, evidence := "MaxAuthTries=6 (default)" }

/- ── Firewall security rules (source: src/rules/firewall.ts) ──────────── -/

def firewallDisabledTest (config : ParsedConfig) : RuleResult :=
  match config.firewall with
  | none =>
    { passed := false,
      evidence := "No firewall config provided — firewall status unknown",
      details := some "Cannot verify firewall state without cluster.fw configuration." }
  | some fw =>
    if fw.enabled ≠ some true then
      { passed := false,
        evidence := "Firewall enabled=" ++ (match fw.enabled with | some b => toString b | none => "not set"),
        details := some "The cluster firewall must be explicitly enabled in [OPTIONS] with \"enable: 1\"." }
    else { passed := true, evidence := "Cluster firewall is enabled" }

def defaultAcceptInputTest (config : ParsedConfig) : RuleResult :=
  match config.firewall with
  | none => { passed := true, evidence := "No firewall config provided" }
  | some fw =>
    if fw.policyIn = some "ACCEPT" then
      { passed := false,
        evidence := "cluster.fw policy_in=" ++ fw.policyIn.getD "null",
        details := some "All inbound traffic is allowed by default. Only explicitly blocked traffic is dropped." }
    else
      let iptablesHit : Bool :=
        match config.iptables with
        | some ipt =>
          match ipt.chains.find? (fun c => c.name == "INPUT") with
          | some inputChain => inputChain.policy == "ACCEPT"
          | none => false
        | none => false
      if iptablesHit then
        { passed := false,
          evidence := "iptables INPUT chain default policy=ACCEPT",
          details := some "The iptables INPUT chain accepts all traffic by default." }
      else
        { passed := true,
          evidence := "policy_in=" ++ fw.policyIn.getD "not set (Proxmox default: DROP)" }

def noFirewallRulesTest (config : ParsedConfig) : RuleResult :=
  match config.firewall with
  | none => { passed := true, evidence := "No firewall config provided" }
  | some fw =>
    if fw.rules.length = 0 then
      { passed := false,
        evidence := "Zero firewall rules defined in cluster.fw",
        details := some "A properly configured firewall should have explicit rules for allowed services (SSH, web UI, SPICE, etc.)." }
    else
      { passed := true, evidence := toString fw.rules.length ++ " firewall rule(s) defined" }

/- ── Auth security rules (source: src/rules/auth.ts) ──────────────────── -/

def no2faUsersTest (config : ParsedConfig) : RuleResult :=
  match config.auth with
  | none => { passed := true, evidence := "No user config provided" }
  | some auth =>
    if auth.users.length = 0 then { passed := true, evidence := "No user config provided" }
    else
      let activeUsers := auth.users.filter (fun u => !(u.enable == some false) && !(u.userid == "root@pam"))
      let usersWithout2FA := activeUsers.filter (fun u => !(jsTruthyStr u.tfa))
      if usersWithout2FA.length > 0 then
        { passed := false,
          evidence := toString usersWithout2FA.length ++ "/" ++ toString activeUsers.length ++
            " active users lack 2FA: " ++ joinWith ", " (usersWithout2FA.map (fun u => u.userid)),
          details := some "These accounts can be accessed with just a password." }
      else
        match auth.users.find? (fun u => u.userid == "root@pam") with
        | some root =>
          if !(jsTruthyStr root.tfa) then
            { passed := false,
              evidence := "root@pam does not have 2FA configured",
              details := some "The root account is the highest-privilege account and should always have 2FA." }
          else
            { passed := true,
              evidence := "All " ++ toString activeUsers.length ++ " active users have 2FA configured" }
        | none =>
          { passed := true,
            evidence := "All " ++ toString activeUsers.length ++ " active users have 2FA configured" }

def rootApiTokensTest (config : ParsedConfig) : RuleResult :=
  match config.auth with
  | none => { passed := true, evidence := "No user config provided" }
  | some auth =>
    let rootTokens := auth.tokens.filter (fun t => t.userid == "root@pam")
    if rootTokens.length > 0 then
      { passed := false,
        evidence := "root@pam has " ++ toString rootTokens.length ++ " API token(s): " ++
          joinWith ", " (rootTokens.map (fun t => t.tokenId)),
        details := some "Root API tokens have full system access. If leaked, an attacker has complete control." }
    else { passed := true, evidence := "No API tokens found for root@pam" }

def overpermissiveRolesTest (config : ParsedConfig) : RuleResult :=
  match config.auth with
  | none => { passed := true, evidence := "No user config provided" }
  | some auth =>
    let adminAcls := auth.acls.filter (fun acl => acl.role == "Administrator" && !(acl.ugid == "root@pam"))
    if adminAcls.length > 0 then
      let entities := jsSetDedup (adminAcls.map (fun a => a.ugid))
      { passed := false,
        evidence := toString entities.length ++ " non-root entity(s) have Administrator role: " ++
          joinWith ", " entities,
        details := some "The Administrator role grants ALL privileges. Use more restrictive roles like PVEAdmin or custom roles." }
    else { passed := true, evidence := "No non-root users have the Administrator role" }

/- ── Container security rules (source: src/rules/container.ts) ────────── -/

/-- The container label used by both container rules, with the truthiness
test on the optional hostname. -/
def containerLabel (c : ContainerConfig) : String :=
  "CT " ++ c.id ++ (match c.hostname with
    | some h => if h ≠ "" then " (" ++ h ++ ")" else ""
    | none => "")

def privilegedContainersTest (config : ParsedConfig) : RuleResult :=
  match config.containers with
  | none => { passed := true, evidence := "No container config provided" }
  | some containers =>
    if containers.containers.length = 0 then
      { passed := true, evidence := "No container config provided" }
    else
      let privileged := containers.containers.filter (fun c => c.unprivileged == some false || c.unprivileged == none)
      if privileged.length > 0 then
        { passed := false,
          evidence := toString privileged.length ++ " privileged container(s): " ++
            joinWith ", " (privileged.map containerLabel),
          details := some "Privileged containers can potentially escape to the host. Convert to unprivileged where possible." }
      else
        { passed := true,
          evidence := "All " ++ toString containers.containers.length ++ " container(s) are unprivileged" }

def containerNestingTest (config : ParsedConfig) : RuleResult :=
  match config.containers with
  | none => { passed := true, evidence := "No container config provided" }
  | some containers =>
    if containers.containers.length = 0 then
      { passed := true, evidence := "No container config provided" }
    else
      let nested := containers.containers.filter (fun c => c.nesting)
      if nested.length > 0 then
        { passed := false,
          evidence := toString nested.length ++ " container(s) with nesting: " ++
            joinWith ", " (nested.map containerLabel),
          details := some "Nesting grants additional kernel capabilities that increase container escape risk." }
      else { passed := true, evidence := "No containers have nesting enabled" }

/- ── Storage security rules (source: src/rules/storage.ts) ────────────── -/

def nfsNoRootSquashTest (config : ParsedConfig) : RuleResult :=
  match config.storage with
  | none => { passed := true, evidence := "No storage config provided" }
  | some storage =>
    if storage.entries.length = 0 then { passed := true, evidence := "No storage config provided" }
    else
      let nfsEntries := storage.entries.filter (fun e => e.type == "nfs")
      let vulnerable := nfsEntries.filter (fun e =>
        let opts := (e.options.getD "") ++ " " ++ (e.mountOptions.getD "") ++ " " ++
          ((recordGet e.rawOptions "options").getD "")
        strIncludes opts "no_root_squash")
      if vulnerable.length > 0 then
        { passed := false,
          evidence := toString vulnerable.length ++ " NFS mount(s) with no_root_squash: " ++
            joinWith ", " (vulnerable.map (fun e => e.id)),
          details := some "Root on this host can read/write any file on the NFS server as root. An attacker who compromises a container can leverage this." }
      else if nfsEntries.length = 0 then
        { passed := true, evidence := "No NFS storage backends configured" }
      else
        { passed := true,
          evidence := toString nfsEntries.length ++ " NFS mount(s) — none use no_root_squash" }

def cifsWorldReadableTest (config : ParsedConfig) : RuleResult :=
  match config.storage with
  | none => { passed := true, evidence := "No storage config provided" }
  | some storage =>
    if storage.entries.length = 0 then { passed := true, evidence := "No storage config provided" }
    else
      let cifsEntries := storage.entries.filter (fun e => e.type == "cifs")
      let vulnerable := cifsEntries.filter (fun e =>
        let allOpts := joinWith " " (e.rawOptions.map (fun p => p.2)) ++ " " ++
          (e.options.getD "") ++ " " ++ (e.mountOptions.getD "")
        strIncludes allOpts "0777" || strIncludes allOpts "0666" ||
        strIncludes allOpts "file_mode=0777" || strIncludes allOpts "dir_mode=0777" ||
        strIncludes allOpts "guest" || strIncludes allOpts "sec=none")
      if vulnerable.length > 0 then
        { passed := false,
          evidence := toString vulnerable.length ++ " CIFS mount(s) with broad permissions: " ++
            joinWith ", " (vulnerable.map (fun e => e.id)),
          details := some "World-readable CIFS mounts or guest access allow any process on the host to access storage content." }
      else if cifsEntries.length = 0 then
        { passed := true, evidence := "No CIFS storage backends configured" }
      else
        { passed := true,
          evidence := toString cifsEntries.length ++ " CIFS mount(s) — permissions look reasonable" }

/- ── API security rules (source: src/rules/api.ts) ────────────────────── -/

def adminApiTokensTest (config : ParsedConfig) : RuleResult :=
  match config.auth, config.api with
  | some auth, some api =>
    if api.tokens.length = 0 then { passed := true, evidence := "No API tokens configured" }
    else
      let adminRoles := ["Administrator", "PVEAdmin"]
      let adminTokens := api.tokens.foldl (fun acc token =>
        let userAcls := auth.acls.filter (fun acl =>
          acl.ugid == token.userid && adminRoles.contains acl.role)
        if userAcls.length > 0 && (token.privsep == some false || token.privsep == none) then
          acc ++ [token.userid ++ "!" ++ token.tokenId]
        else acc) []
      if adminTokens.length > 0 then
        { passed := false,
          evidence := toString adminTokens.length ++ " admin-level API token(s): " ++
            joinWith ", " adminTokens,
          details := some "These tokens can perform destructive operations (delete VMs, modify cluster config). Use privilege-separated tokens with minimal roles." }
      else
        { passed := true,
          evidence := toString api.tokens.length ++ " API token(s) — none have unrestricted admin access" }
  | _, _ => { passed := true, evidence := "No API tokens configured" }

def noTokenExpiryTest (config : ParsedConfig) : RuleResult :=
  match config.api with
  | none => { passed := true, evidence := "No API tokens configured" }
  | some api =>
    if api.tokens.length = 0 then { passed := true, evidence := "No API tokens configured" }
    else
      let noExpiry := api.tokens.filter (fun t =>
        match t.expire with | none => true | some e => e == 0)
      if noExpiry.length > 0 then
        { passed := false,
          evidence := toString noExpiry.length ++ " token(s) without expiration: " ++
            joinWith ", " (noExpiry.map (fun t => t.userid ++ "!" ++ t.tokenId)),
          details := some "Tokens without expiry remain valid until manually revoked. Set expiration dates for all tokens." }
      else
        { passed := true,
          evidence := "All " ++ toString api.tokens.length ++ " token(s) have expiration dates" }

/- ── Rule catalog (source: src/rules/index.ts) ────────────────────────── -/

def rootSshPasswordRule : SecurityRule :=
  { id := "root-ssh-password", category := AuditCategory.ssh, severity := Severity.critical,
    test := rootSshPasswordTest }

def sshDefaultPortRule : SecurityRule :=
  { id := "ssh-default-port", category := AuditCategory.ssh, severity := Severity.medium,
    test := sshDefaultPortTest }

def passwordAuthEnabledRule : SecurityRule :=
  { id := "password-auth-enabled", category := AuditCategory.ssh, severity := Severity.high,
    test := passwordAuthEnabledTest }

def highMaxAuthTriesRule : SecurityRule :=
  { id := "high-max-auth-tries", category := AuditCategory.ssh, severity := Severity.medium,
    test := highMaxAuthTriesTest }

def sshRules : List SecurityRule :=
  [rootSshPasswordRule, sshDefaultPortRule, passwordAuthEnabledRule, highMaxAuthTriesRule]

def no2faUsersRule : SecurityRule :=
  { id := "no-2fa-users", category := AuditCategory.auth, severity := Severity.high,
    test := no2faUsersTest }

def rootApiTokensRule : SecurityRule :=
  { id := "root-api-tokens", category := AuditCategory.auth, severity := Severity.high,
    test := rootApiTokensTest }

def overpermissiveRolesRule : SecurityRule :=
  { id := "overpermissive-roles", category := AuditCategory.auth, severity := Severity.medium,
    test := overpermissiveRolesTest }

def authRules : List SecurityRule :=
  [no2faUsersRule, rootApiTokensRule, overpermissiveRolesRule]

def firewallDisabledRule : SecurityRule :=
  { id := "firewall-disabled", category := AuditCategory.firewall, severity := Severity.critical,
    test := firewallDisabledTest }

def defaultAcceptInputRule : SecurityRule :=
  { id := "default-accept-input", category := AuditCategory.firewall, severity := Severity.high,
    test := defaultAcceptInputTest }

def noFirewallRulesRule : SecurityRule :=
  { id := "no-firewall-rules", category := AuditCategory.firewall, severity := Severity.medium,
    test := noFirewallRulesTest }

def firewallRules : List SecurityRule :=
  [firewallDisabledRule, defaultAcceptInputRule, noFirewallRulesRule]

def privilegedContainersRule : SecurityRule :=
  { id := "privileged-containers", category := AuditCategory.container, severity := Severity.high,
    test := privilegedContainersTest }

def containerNestingRule : SecurityRule :=
  { id := "container-nesting", category := AuditCategory.container, severity := Severity.medium,
    test := containerNestingTest }

def containerRules : List SecurityRule :=
  [privilegedContainersRule, containerNestingRule]

def nfsNoRootSquashRule : SecurityRule :=
  { id := "nfs-no-root-squash", category := AuditCategory.storage, severity := Severity.high,
    test := nfsNoRootSquashTest }

def cifsWorldReadableRule : SecurityRule :=
  { id := "cifs-world-readable", category := AuditCategory.storage, severity := Severity.medium,
    test := cifsWorldReadableTest }

def storageRules : List SecurityRule :=
  [nfsNoRootSquashRule, cifsWorldReadableRule]

def adminApiTokensRule : SecurityRule :=
  { id := "admin-api-tokens", category := AuditCategory.api, severity := Severity.high,
    test := adminApiTokensTest }

def noTokenExpiryRule : SecurityRule :=
  { id := "no-token-expiry", category := AuditCategory.api, severity := Severity.medium,
    test := noTokenExpiryTest }

def apiRules : List SecurityRule :=
  [adminApiTokensRule, noTokenExpiryRule]

/-- All security rules, in registry order. -/
def allRules : List SecurityRule :=
  sshRules ++ authRules ++ firewallRules ++ containerRules ++ storageRules ++ apiRules

/- ── Scoring engine (source: src/utils/scoring.ts) ────────────────────── -/

/-- Category weight configuration. -/
def categoryWeight : AuditCategory → Int
  | AuditCategory.ssh => 25
  | AuditCategory.auth => 20
  | AuditCategory.firewall => 25
  | AuditCategory.container => 15
  | AuditCategory.storage => 10
  | AuditCategory.api => 5

/-- Severity deduction values. -/
def severityDeduction : Severity → Int
  | Severity.critical => 40
  | Severity.high => 25
  | Severity.medium => 10
  | Severity.info => 5

/-- Map score to letter grade. -/
def scoreToGrade (score : Int) : Grade :=
  if score ≥ 90 then Grade.A
  else if score ≥ 80 then Grade.B
  else if score ≥ 70 then Grade.C
  else if score ≥ 60 then Grade.D
  else Grade.F

/-- Calculate score for a single category based on its findings: start at
100, subtract the severity deduction of each failed finding, floor at 0. -/
def calculateCategoryScore (category : AuditCategory) (findings : List Finding) : CategoryScore :=
  let score := findings.foldl
    (fun s f => if f.result.passed then s else s - severityDeduction f.rule.severity) 100
  { category := category, score := max 0 score, findings := findings, maxScore := 100 }

/-- JS Math.round of the quotient of two integers with a positive divisor:
half-up rounding, the floor of the quotient plus one half. -/
def jsRoundDiv (a b : Int) : Int := Int.fdiv (2 * a + b) (2 * b)

/-- Calculate overall weighted score from category scores. -/
def calculateOverallScore (categories : List CategoryScore) : Int :=
  let totalWeight := categories.foldl (fun a c => a + categoryWeight c.category) 0
  let weightedSum := categories.foldl (fun a c => a + c.score * categoryWeight c.category) 0
  if totalWeight = 0 then 0 else jsRoundDiv weightedSum totalWeight

/-- The six categories, in the grouping order of the source. -/
def allCategories : List AuditCategory :=
  [AuditCategory.ssh, AuditCategory.firewall, AuditCategory.auth,
   AuditCategory.container, AuditCategory.storage, AuditCategory.api]

/-- Run all rules against a parsed config and generate a full audit report.
The grouping of findings by category via a map seeded with the six
categories and filled in finding order is expressed as a filter of the
finding list per category, which preserves the same per-category order; the
run timestamp is passed in as a parameter. -/
def generateAuditReport (now : Int) (parsedConfig : ParsedConfig)
    (rules : List SecurityRule) : AuditReport :=
  let allFindings : List Finding := rules.map (fun rule => { rule := rule, result := rule.test parsedConfig })
  let categories : List CategoryScore := allCategories.map (fun cat =>
    calculateCategoryScore cat (allFindings.filter (fun f => f.rule.category == cat)))
  let overallScore := calculateOverallScore categories
  let overallGrade := scoreToGrade overallScore
  let inputFiles := rawKeyOrder.filter (fun t => jsTrim (parsedConfig.raw t) ≠ "")
  { timestamp := now, overallGrade := overallGrade, overallScore := overallScore,
    categories := categories, findings := allFindings, inputFiles := inputFiles }

/- ── Derived definitions used by the verification statements ──────────── -/

/-- The entirely empty ParsedConfig: every optional sub-model absent, every
raw entry the empty string. -/
def emptyParsedConfig : ParsedConfig :=
  { ssh := none, firewall := none, auth := none, containers := none, api := none,
    storage := none, iptables := none, raw := fun _ => "" }

/-- The secondary packet-filter check of the default-accept-input rule, as a
named predicate: the first INPUT chain of the parsed iptables sub-model has
declared policy ACCEPT. -/
def iptablesInputAccept (config : ParsedConfig) : Bool :=
  match config.iptables with
  | some ipt =>
    match ipt.chains.find? (fun c => c.name == "INPUT") with
    | some inputChain => inputChain.policy == "ACCEPT"
    | none => false
  | none => false

/-- A cluster firewall sub-model with policyIn explicitly DROP. -/
def c3FirewallDrop : ParsedFirewall :=
  { emptyParsedFirewall with enabled := some true, policyIn := some "DROP" }

/-- A config whose cluster firewall policy is DROP while the packet-filter
INPUT chain declares policy ACCEPT. -/
def c3Config : ParsedConfig :=
  { emptyParsedConfig with
    firewall := some c3FirewallDrop,
    iptables := some ⟨[{ name := "INPUT", policy := "ACCEPT", rules := [] }]⟩ }

/-- The SSH scenario input of the spec. -/
def sshInput4 : String :=
  "PermitRootLogin yes\nPasswordAuthentication yes\nPort 22\nMaxAuthTries 10\n"

/-- The config holding only the parsed SSH scenario input. -/
def cfg4 : ParsedConfig := { emptyParsedConfig with ssh := some (parseSSHConfig sshInput4) }

/-- The total severity deduction of the failed findings of a list. -/
def failedDeductionSum (fs : List Finding) : Int :=
  ((fs.filter (fun f => !f.result.passed)).map (fun f => severityDeduction f.rule.severity)).sum

/-- The category score exactly as the spec words it: start at 100, subtract
the severity deduction once per failed finding, floor at 0.  Stated
separately from calculateCategoryScore so the two can be compared. -/
def specCategoryScore (fs : List Finding) : Int := max 0 (100 - failedDeductionSum fs)

/-- Rank of a grade, best highest, for the monotonicity statement. -/
def gradeRank : Grade → Nat
  | Grade.F => 0
  | Grade.D => 1
  | Grade.C => 2
  | Grade.B => 3
  | Grade.A => 4

/-- user.cfg input where the tfa record precedes its owning user record. -/
def tfaFirstInput : String := "tfa:alice@pve:totp\nuser:alice@pve:1::::::"

/-- user.cfg input where the user record precedes its tfa record. -/
def userFirstInput : String := "user:alice@pve:1::::::\ntfa:alice@pve:totp"

/-- The single merged record both orders must produce. -/
def mergedAlice : PVEUser := { userid := "alice@pve", enable := some true, tfa := some "totp" }

/-- A user record with several present fields. -/
def userA : PVEUser := { userid := "a@pam", email := some "a@x.org", tfa := some "totp" }

/-- A user record for the same id with every optional field absent. -/
def userB : PVEUser := { userid := "a@pam" }

/-- A passing finding. -/
def passFinding : Finding :=
  { rule := rootSshPasswordRule, result := { passed := true, evidence := "ok" } }

/-- A failing finding. -/
def failFinding : Finding :=
  { rule := rootSshPasswordRule, result := { passed := false, evidence := "bad" } }

/- ── Helper lemmas ────────────────────────────────────────────────────── -/

/-- Every parser maps an input that trims to the empty string to its
zero-value sub-model (the early-return guard of each parser). -/
theorem parsers_zero_of_trim (s : String) (h : jsTrim s = "") :
    parseSSHConfig s = emptyParsedSSH ∧ parseUserConfig s = emptyParsedAuth ∧
    parseClusterFirewall s = emptyParsedFirewall ∧ parseIptables s = emptyParsedIptables ∧
    parseLXCConfig s = emptyParsedContainers ∧ parseStorageConfig s = emptyParsedStorage := by
  refine ⟨?_, ?_, ?_, ?_, ?_, ?_⟩ <;>
    simp [parseSSHConfig, parseUserConfig, parseClusterFirewall, parseIptables,
      parseLXCConfig, parseStorageConfig, h]

/-- Every severity deduction is nonnegative. -/
theorem severityDeduction_pos (s : Severity) : 0 < severityDeduction s := by
  cases s <;> simp [severityDeduction]

/-- The deduction total of a cons. -/
theorem failedDeductionSum_cons (f : Finding) (rest : List Finding) :
    failedDeductionSum (f :: rest) =
      (if f.result.passed then 0 else severityDeduction f.rule.severity) + failedDeductionSum rest := by
  unfold failedDeductionSum
  rw [List.filter_cons]
  by_cases hp : f.result.passed
  · simp [hp]
  · have hp' : f.result.passed = false := by revert hp; cases f.result.passed <;> simp
    simp [hp']

/-- The category score fold subtracts exactly the failed-finding deduction
total from its start value. -/
theorem categoryFold_eq (fs : List Finding) (a : Int) :
    fs.foldl (fun s f => if f.result.passed then s else s - severityDeduction f.rule.severity) a
      = a - failedDeductionSum fs := by
  induction fs generalizing a with
  | nil => simp [failedDeductionSum]
  | cons f rest ih =>
    rw [failedDeductionSum_cons]
    simp only [List.foldl_cons]
    rw [ih]
    by_cases hp : f.result.passed
    · simp [hp]
    · have hp' : f.result.passed = false := by revert hp; cases f.result.passed <;> simp
      simp only [hp', Bool.false_eq_true, if_false]
      rw [sub_sub]

/-- The computed category score equals the spec formula. -/
theorem calcScore_eq (cat : AuditCategory) (fs : List Finding) :
    (calculateCategoryScore cat fs).score = specCategoryScore fs := by
  simp [calculateCategoryScore, specCategoryScore, categoryFold_eq]

/-- The failed-finding deduction total is nonnegative. -/
theorem failedDeductionSum_nonneg (fs : List Finding) : 0 ≤ failedDeductionSum fs := by
  unfold failedDeductionSum
  induction fs with
  | nil => simp
  | cons f rest ih =>
    rw [List.filter_cons]
    by_cases hp : (!f.result.passed) = true
    · simp only [hp, if_true, List.map_cons, List.sum_cons]
      have := severityDeduction_pos f.rule.severity
      omega
    · simp only [hp]
      simpa using ih

/-- When every finding passes the deduction total is zero. -/
theorem failedDeductionSum_all_pass (fs : List Finding)
    (h : ∀ f ∈ fs, f.result.passed = true) : failedDeductionSum fs = 0 := by
  unfold failedDeductionSum
  have hf : fs.filter (fun f => !f.result.passed) = [] := by
    rw [List.filter_eq_nil_iff]
    intro f hfm
    simp [h f hfm]
  rw [hf]
  rfl

/-- The merge of a later user record never changes the user id. -/
theorem mergeUser_userid (e u : PVEUser) : (mergeUser e u).userid = e.userid := rfl

/-- The in-place merge branch of the deduplication step leaves the id list
unchanged. -/
theorem map_userid_update (m : List PVEUser) (u : PVEUser) :
    (m.map (fun e => if e.userid == u.userid then mergeUser e u else e)).map (fun e => e.userid)
      = m.map (fun e => e.userid) := by
  induction m with
  | nil => rfl
  | cons a t ih =>
    simp only [List.map_cons, ih, List.cons.injEq, and_true]
    split <;> rfl

/-- The deduplication step preserves distinctness of the user ids. -/
theorem dedupStep_preserves_nodup (m : List PVEUser) (u : PVEUser)
    (h : (m.map (fun e => e.userid)).Nodup) :
    ((dedupStep m u).map (fun e => e.userid)).Nodup := by
  unfold dedupStep
  by_cases hc : m.any (fun e => e.userid == u.userid) = true
  · simp only [hc, if_true]
    rw [map_userid_update]
    exact h
  · simp only [hc, if_false, Bool.false_eq_true]
    rw [List.map_append]
    have hone : (List.map (fun e => e.userid) [u]) = [u.userid] := rfl
    rw [hone]
    have hnotin : u.userid ∉ m.map (fun e => e.userid) := by
      intro hmem
      rcases List.mem_map.mp hmem with ⟨e, he, heq⟩
      exact hc (List.any_eq_true.mpr ⟨e, he, by simp [heq]⟩)
    refine List.Nodup.append h (List.nodup_singleton _) ?_
    intro a ha hb
    rw [List.mem_singleton] at hb
    exact hnotin (hb ▸ ha)

/-- The deduplication fold keeps the id list distinct from any distinct
start. -/
theorem dedup_fold_nodup (l : List PVEUser) (acc : List PVEUser)
    (h : (acc.map (fun e => e.userid)).Nodup) :
    ((l.foldl dedupStep acc).map (fun e => e.userid)).Nodup := by
  induction l generalizing acc with
  | nil => exact h
  | cons u rest ih => exact ih _ (dedupStep_preserves_nodup acc u h)

/- ── Claim theorems ───────────────────────────────────────────────────── -/

/-- C1 counterexample: with no sshd_config input at all, the
root-ssh-password rule evaluated on the aggregator output returns
passed equal to false, not the claimed pass with not-provided evidence. -/
theorem c1_counterexample :
    (rootSshPasswordRule.test (parseAllConfigs (fun _ => none))).passed = false := by
  decide

/-- C1 (amended): for every input map whose sshd_config entry is missing or
empty, parseAllConfigs still produces a present, zero-valued ssh sub-model;
on it high-max-auth-tries passes with the default evidence, while
root-ssh-password, ssh-default-port and password-auth-enabled return passed
equal to false, reporting the insecure defaults — the not-provided evidence
arises only when the ssh field is absent from the ParsedConfig, which the
aggregator never produces. -/
theorem c1_amended (inputs : ConfigFileType → Option String)
    (h : (inputs ConfigFileType.sshd_config).getD "" = "") :
    (rootSshPasswordRule.test (parseAllConfigs inputs)).passed = false ∧
    (rootSshPasswordRule.test (parseAllConfigs inputs)).evidence =
      "PermitRootLogin=default (yes), PasswordAuthentication=default (yes)" ∧
    (sshDefaultPortRule.test (parseAllConfigs inputs)).passed = false ∧
    (passwordAuthEnabledRule.test (parseAllConfigs inputs)).passed = false ∧
    (highMaxAuthTriesRule.test (parseAllConfigs inputs)).passed = true ∧
    (highMaxAuthTriesRule.test (parseAllConfigs inputs)).evidence = "MaxAuthTries=6 (default)" ∧
    (parseAllConfigs inputs).ssh = some emptyParsedSSH := by
  have hssh : (parseAllConfigs inputs).ssh = some emptyParsedSSH := by
    simp only [parseAllConfigs]
    rw [h]
    decide
  refine ⟨?_, ?_, ?_, ?_, ?_, ?_, hssh⟩ <;>
    · simp only [rootSshPasswordRule, sshDefaultPortRule, passwordAuthEnabledRule,
        highMaxAuthTriesRule, rootSshPasswordTest, sshDefaultPortTest,
        passwordAuthEnabledTest, highMaxAuthTriesTest, hssh]
      decide

/-- C1 witness: the amended theorem applied to the empty input map. -/
theorem c1_witness :
    (rootSshPasswordRule.test (parseAllConfigs (fun _ => none))).evidence =
      "PermitRootLogin=default (yes), PasswordAuthentication=default (yes)" ∧
    (highMaxAuthTriesRule.test (parseAllConfigs (fun _ => none))).passed = true := by
  obtain ⟨_, h2, _, _, h5, _, _⟩ := c1_amended (fun _ => none) rfl
  exact ⟨h2, h5⟩

/-- C2 counterexample: on the entirely empty ParsedConfig, not every rule of
the catalog returns passed equal to true. -/
theorem c2_counterexample :
    ((allRules.map (fun r => (r.test emptyParsedConfig).passed)).all (fun b => b)) = false := by
  decide

/-- C2 (amended): on the entirely empty ParsedConfig, fifteen of the sixteen
catalog rules return passed equal to true; the firewall-disabled rule
returns passed equal to false, because it fails when no firewall config was
parseable at all. -/
theorem c2_amended :
    allRules.map (fun r => (r.id, (r.test emptyParsedConfig).passed)) =
      [("root-ssh-password", true), ("ssh-default-port", true), ("password-auth-enabled", true),
       ("high-max-auth-tries", true), ("no-2fa-users", true), ("root-api-tokens", true),
       ("overpermissive-roles", true), ("firewall-disabled", false), ("default-accept-input", true),
       ("no-firewall-rules", true), ("privileged-containers", true), ("container-nesting", true),
       ("nfs-no-root-squash", true), ("cifs-world-readable", true), ("admin-api-tokens", true),
       ("no-token-expiry", true)] := by
  decide

/-- C3 counterexample: with the cluster firewall present and policyIn
explicitly DROP but an iptables INPUT chain declaring policy ACCEPT, the
default-accept-input rule returns passed equal to false — the packet-filter
check is not suppressed by the explicit cluster policy. -/
theorem c3_counterexample : (defaultAcceptInputRule.test c3Config).passed = false := by
  decide

/-- C3 (amended): whenever the cluster firewall sub-model is present with
policyIn explicitly set to a value other than ACCEPT — including DROP — the
default-accept-input rule consults the packet-filter sub-model
unconditionally: it passes exactly when the first INPUT chain of the parsed
iptables sub-model does not declare policy ACCEPT. -/
theorem c3_amended (cfg : ParsedConfig) (fw : ParsedFirewall) (p : String)
    (h1 : cfg.firewall = some fw) (h2 : fw.policyIn = some p) (h3 : p ≠ "ACCEPT") :
    (defaultAcceptInputRule.test cfg).passed = !(iptablesInputAccept cfg) := by
  show (defaultAcceptInputTest cfg).passed = !(iptablesInputAccept cfg)
  unfold defaultAcceptInputTest iptablesInputAccept
  simp only [h1]
  rw [if_neg (by simp [h2, h3])]
  rcases hip : cfg.iptables with _ | ipt
  · simp [hip]
  · rcases hfind : ipt.chains.find? (fun c => c.name == "INPUT") with _ | ch
    · simp [hip, hfind]
    · cases hpol : (ch.policy == "ACCEPT") <;> simp [hip, hfind, hpol]

/-- C3 witness: the amended theorem applied to the DROP-with-ACCEPT-INPUT
config, on which the packet-filter branch fires. -/
theorem c3_witness :
    (defaultAcceptInputRule.test c3Config).passed = !(iptablesInputAccept c3Config) ∧
    iptablesInputAccept c3Config = true :=
  ⟨c3_amended c3Config c3FirewallDrop "DROP" rfl rfl (by decide), by decide⟩

/-- C4: the SSH scenario input makes all four ssh rules fail and the ssh
category score is 100 minus 40, 10, 25 and 10, that is 15. -/
theorem c4_ssh_scenario :
    (rootSshPasswordRule.test cfg4).passed = false ∧
    (sshDefaultPortRule.test cfg4).passed = false ∧
    (passwordAuthEnabledRule.test cfg4).passed = false ∧
    (highMaxAuthTriesRule.test cfg4).passed = false ∧
    (calculateCategoryScore AuditCategory.ssh
      (sshRules.map (fun r => { rule := r, result := r.test cfg4 }))).score = 15 ∧
    (100 : Int) - 40 - 10 - 25 - 10 = 15 := by
  refine ⟨?_, ?_, ?_, ?_, ?_, ?_⟩ <;> decide

/-- C5: for every config, the report of generateAuditReport over the fixed
catalog evaluates each rule exactly once (the findings are exactly the map
of the catalog through evaluation), its finding ids enumerate the catalog
ids exactly once each, the catalog has the sixteen documented ids with no
duplicates, and the report always carries the six category records. -/
theorem c5_report_structure (now : Int) (cfg : ParsedConfig) :
    (generateAuditReport now cfg allRules).findings =
      allRules.map (fun r => { rule := r, result := r.test cfg }) ∧
    (generateAuditReport now cfg allRules).findings.map (fun f => f.rule.id) =
      allRules.map (fun r => r.id) ∧
    allRules.map (fun r => r.id) =
      ["root-ssh-password", "ssh-default-port", "password-auth-enabled", "high-max-auth-tries",
       "no-2fa-users", "root-api-tokens", "overpermissive-roles", "firewall-disabled",
       "default-accept-input", "no-firewall-rules", "privileged-containers", "container-nesting",
       "nfs-no-root-squash", "cifs-world-readable", "admin-api-tokens", "no-token-expiry"] ∧
    (allRules.map (fun r => r.id)).Nodup ∧
    (generateAuditReport now cfg allRules).categories.map (fun c => c.category) = allCategories ∧
    allCategories.length = 6 ∧ allRules.length = 16 := by
  refine ⟨rfl, rfl, rfl, by decide, rfl, rfl, rfl⟩

/-- C6: the category score is exactly the spec formula (100 minus the fixed
deduction — critical 40, high 25, medium 10, info 5 — once per failed
finding, floored at 0), it always lies in the integer interval from 0 to
100, appending one more failing finding never increases it, and a category
whose findings all pass scores exactly 100. -/
theorem c6_category_score :
    (severityDeduction Severity.critical = 40 ∧ severityDeduction Severity.high = 25 ∧
      severityDeduction Severity.medium = 10 ∧ severityDeduction Severity.info = 5) ∧
    (∀ (cat : AuditCategory) (fs : List Finding),
      (calculateCategoryScore cat fs).score = specCategoryScore fs) ∧
    (∀ (cat : AuditCategory) (fs : List Finding),
      0 ≤ (calculateCategoryScore cat fs).score ∧ (calculateCategoryScore cat fs).score ≤ 100) ∧
    (∀ (cat : AuditCategory) (fs : List Finding) (f : Finding), f.result.passed = false →
      (calculateCategoryScore cat (fs ++ [f])).score ≤ (calculateCategoryScore cat fs).score) ∧
    (∀ (cat : AuditCategory) (fs : List Finding), (∀ f ∈ fs, f.result.passed = true) →
      (calculateCategoryScore cat fs).score = 100) := by
  refine ⟨⟨rfl, rfl, rfl, rfl⟩, calcScore_eq, ?_, ?_, ?_⟩
  · intro cat fs
    rw [calcScore_eq]
    unfold specCategoryScore
    constructor
    · exact le_max_left 0 _
    · exact max_le (by norm_num) (sub_le_self 100 (failedDeductionSum_nonneg fs))
  · intro cat fs f hp
    rw [calcScore_eq, calcScore_eq]
    unfold specCategoryScore
    have hsum : failedDeductionSum (fs ++ [f]) =
        failedDeductionSum fs + severityDeduction f.rule.severity := by
      unfold failedDeductionSum
      rw [List.filter_append, List.map_append, List.sum_append]
      simp [hp]
    rw [hsum]
    apply max_le_max le_rfl
    apply sub_le_sub_left
    exact le_add_of_nonneg_right (le_of_lt (severityDeduction_pos f.rule.severity))
  · intro cat fs h
    rw [calcScore_eq]
    unfold specCategoryScore
    rw [failedDeductionSum_all_pass fs h]
    norm_num

/-- C6 witness: the score formula, the monotonicity step and the all-pass
case of the theorem applied at concrete findings. -/
theorem c6_witness :
    (calculateCategoryScore AuditCategory.ssh ([passFinding] ++ [failFinding])).score ≤
      (calculateCategoryScore AuditCategory.ssh [passFinding]).score ∧
    (calculateCategoryScore AuditCategory.ssh [passFinding]).score = 100 := by
  obtain ⟨_, _, _, hmono, hall⟩ := c6_category_score
  refine ⟨hmono AuditCategory.ssh [passFinding] failFinding rfl, ?_⟩
  apply hall
  intro f hf
  simp only [List.mem_singleton] at hf
  subst hf
  rfl

/-- C7: scoreToGrade is total on the integers, non-decreasing in grade rank,
and matches the table with inclusive lower bounds at 90, 80, 70 and 60,
including the eight boundary values the spec lists. -/
theorem c7_grade_table :
    (∀ s t : Int, s ≤ t → gradeRank (scoreToGrade s) ≤ gradeRank (scoreToGrade t)) ∧
    (∀ s : Int, 90 ≤ s → scoreToGrade s = Grade.A) ∧
    (∀ s : Int, 80 ≤ s → s < 90 → scoreToGrade s = Grade.B) ∧
    (∀ s : Int, 70 ≤ s → s < 80 → scoreToGrade s = Grade.C) ∧
    (∀ s : Int, 60 ≤ s → s < 70 → scoreToGrade s = Grade.D) ∧
    (∀ s : Int, s < 60 → scoreToGrade s = Grade.F) ∧
    scoreToGrade 90 = Grade.A ∧ scoreToGrade 89 = Grade.B ∧ scoreToGrade 80 = Grade.B ∧
    scoreToGrade 79 = Grade.C ∧ scoreToGrade 70 = Grade.C ∧ scoreToGrade 69 = Grade.D ∧
    scoreToGrade 60 = Grade.D ∧ scoreToGrade 59 = Grade.F := by
  refine ⟨?_, ?_, ?_, ?_, ?_, ?_, by decide, by decide, by decide, by decide, by decide,
    by decide, by decide, by decide⟩
  · intro s t h
    unfold scoreToGrade
    split_ifs <;> simp [gradeRank] <;> omega
  · intro s h
    unfold scoreToGrade
    rw [if_pos (by omega)]
  · intro s h1 h2
    unfold scoreToGrade
    rw [if_neg (by omega), if_pos (by omega)]
  · intro s h1 h2
    unfold scoreToGrade
    rw [if_neg (by omega), if_neg (by omega), if_pos (by omega)]
  · intro s h1 h2
    unfold scoreToGrade
    rw [if_neg (by omega), if_neg (by omega), if_neg (by omega), if_pos (by omega)]
  · intro s h
    unfold scoreToGrade
    rw [if_neg (by omega), if_neg (by omega), if_neg (by omega), if_neg (by omega)]

/-- C7 witness: the table cases and monotonicity applied at concrete
scores. -/
theorem c7_witness :
    scoreToGrade 95 = Grade.A ∧
    gradeRank (scoreToGrade 30) ≤ gradeRank (scoreToGrade 85) := by
  obtain ⟨hmono, ha, _⟩ := c7_grade_table
  exact ⟨ha 95 (by norm_num), hmono 30 85 (by norm_num)⟩

/-- C8: for every input string, the user list of parseUserConfig carries
pairwise-distinct user ids; the merge of a later record for an id keeps the
id, lets a present field from either source win and never overwrites a
present field with an absent one; and the tfa-before-user and
user-before-tfa inputs both produce the single merged record with the tfa
field set. -/
theorem c8_user_merge :
    (∀ s : String, ((parseUserConfig s).users.map (fun u => u.userid)).Nodup) ∧
    (∀ e u : PVEUser,
      (mergeUser e u).userid = e.userid ∧
      (u.tfa = none → (mergeUser e u).tfa = e.tfa) ∧
      (jsTruthyStr u.tfa = true → (mergeUser e u).tfa = u.tfa) ∧
      (u.email = none → (mergeUser e u).email = e.email) ∧
      (u.enable = none → (mergeUser e u).enable = e.enable) ∧
      (u.expire = none → (mergeUser e u).expire = e.expire) ∧
      (u.firstName = none → (mergeUser e u).firstName = e.firstName) ∧
      (u.lastName = none → (mergeUser e u).lastName = e.lastName) ∧
      (u.comment = none → (mergeUser e u).comment = e.comment)) ∧
    (parseUserConfig tfaFirstInput).users = [mergedAlice] ∧
    (parseUserConfig userFirstInput).users = [mergedAlice] := by
  refine ⟨?_, ?_, by decide, by decide⟩
  · intro s
    simp only [parseUserConfig]
    by_cases h : jsTrim s = ""
    · simp [h, emptyParsedAuth]
    · rw [if_neg h]
      exact dedup_fold_nodup _ [] (by simp)
  · intro e u
    refine ⟨rfl, ?_, ?_, ?_, ?_, ?_, ?_, ?_, ?_⟩
    · intro h
      simp [mergeUser, h, jsTruthyStr]
    · intro h
      simp [mergeUser, h]
    · intro h
      simp [mergeUser, h, jsTruthyStr]
    · intro h
      simp [mergeUser, h]
    · intro h
      simp [mergeUser, h]
    · intro h
      simp [mergeUser, h, jsTruthyStr]
    · intro h
      simp [mergeUser, h, jsTruthyStr]
    · intro h
      simp [mergeUser, h, jsTruthyStr]

/-- C8 witness: the merge clauses applied at a concrete present-field record
and a concrete absent-field record, plus the distinctness clause at the
empty input. -/
theorem c8_witness :
    (mergeUser userA userB).tfa = userA.tfa ∧
    (mergeUser userA userB).email = userA.email ∧
    ((parseUserConfig "").users.map (fun u => u.userid)).Nodup := by
  obtain ⟨hn, hm, _, _⟩ := c8_user_merge
  obtain ⟨_, htfa, _, hemail, _⟩ := hm userA userB
  exact ⟨htfa rfl, hemail rfl, hn ""⟩

/-- C9: each of the six format parsers maps any input that trims to the
empty string (the empty string and every whitespace-only string) to its
zero-value sub-model. -/
theorem c9_empty_parses (s : String) (h : jsTrim s = "") :
    parseSSHConfig s = emptyParsedSSH ∧ parseUserConfig s = emptyParsedAuth ∧
    parseClusterFirewall s = emptyParsedFirewall ∧ parseIptables s = emptyParsedIptables ∧
    parseLXCConfig s = emptyParsedContainers ∧ parseStorageConfig s = emptyParsedStorage :=
  parsers_zero_of_trim s h

/-- C9 witness: the theorem applied to a concrete whitespace-only string. -/
theorem c9_witness :
    jsTrim " \n\t " = "" ∧ parseSSHConfig " \n\t " = emptyParsedSSH ∧
    parseStorageConfig " \n\t " = emptyParsedStorage := by
  have h : jsTrim " \n\t " = "" := by decide
  exact ⟨h, (c9_empty_parses " \n\t " h).1, (c9_empty_parses " \n\t " h).2.2.2.2.2⟩

/-- C10: for every input map the aggregator output has all seven sub-models
present, its raw record defaults every missing input to the empty string,
and an input that trims empty yields the corresponding zero-value sub-model
(so the not-provided branches of the rules, which test for an absent
sub-model, can never fire on aggregator output). -/
theorem c10_aggregator_total (inputs : ConfigFileType → Option String) :
    (parseAllConfigs inputs).ssh.isSome = true ∧
    (parseAllConfigs inputs).firewall.isSome = true ∧
    (parseAllConfigs inputs).auth.isSome = true ∧
    (parseAllConfigs inputs).containers.isSome = true ∧
    (parseAllConfigs inputs).api.isSome = true ∧
    (parseAllConfigs inputs).storage.isSome = true ∧
    (parseAllConfigs inputs).iptables.isSome = true ∧
    (∀ t : ConfigFileType, (parseAllConfigs inputs).raw t = (inputs t).getD "") ∧
    (jsTrim ((inputs ConfigFileType.sshd_config).getD "") = "" →
      (parseAllConfigs inputs).ssh = some emptyParsedSSH) ∧
    (jsTrim ((inputs ConfigFileType.cluster_fw).getD "") = "" →
      (parseAllConfigs inputs).firewall = some emptyParsedFirewall) ∧
    (jsTrim ((inputs ConfigFileType.user_cfg).getD "") = "" →
      (parseAllConfigs inputs).auth = some emptyParsedAuth) ∧
    (jsTrim ((inputs ConfigFileType.lxc_conf).getD "") = "" →
      (parseAllConfigs inputs).containers = some emptyParsedContainers) ∧
    (jsTrim ((inputs ConfigFileType.storage_cfg).getD "") = "" →
      (parseAllConfigs inputs).storage = some emptyParsedStorage) ∧
    (jsTrim ((inputs ConfigFileType.iptables).getD "") = "" →
      (parseAllConfigs inputs).iptables = some emptyParsedIptables) ∧
    (jsTrim ((inputs ConfigFileType.user_cfg).getD "") = "" →
      (parseAllConfigs inputs).api = some { tokens := [], tokenAcls := [] }) := by
  refine ⟨rfl, rfl, rfl, rfl, rfl, rfl, rfl, fun t => rfl, ?_, ?_, ?_, ?_, ?_, ?_, ?_⟩
  · intro h
    simp only [parseAllConfigs]
    exact congrArg some ((parsers_zero_of_trim _ h).1)
  · intro h
    simp only [parseAllConfigs]
    exact congrArg some ((parsers_zero_of_trim _ h).2.2.1)
  · intro h
    simp only [parseAllConfigs]
    exact congrArg some ((parsers_zero_of_trim _ h).2.1)
  · intro h
    simp only [parseAllConfigs]
    exact congrArg some ((parsers_zero_of_trim _ h).2.2.2.2.1)
  · intro h
    simp only [parseAllConfigs]
    exact congrArg some ((parsers_zero_of_trim _ h).2.2.2.2.2)
  · intro h
    simp only [parseAllConfigs]
    exact congrArg some ((parsers_zero_of_trim _ h).2.2.2.1)
  · intro h
    simp only [parseAllConfigs]
    rw [(parsers_zero_of_trim _ h).2.1]
    rfl

/-- C10 witness: the theorem applied to the empty input map. -/
theorem c10_witness :
    (parseAllConfigs (fun _ => none)).ssh = some emptyParsedSSH ∧
    (parseAllConfigs (fun _ => none)).api = some { tokens := [], tokenAcls := [] } := by
  obtain ⟨_, _, _, _, _, _, _, _, z1, _, _, _, _, _, z7⟩ := c10_aggregator_total (fun _ => none)
  exact ⟨z1 rfl, z7 rfl⟩

end ProxGuard
